import Mathlib

/-!
Shallow embedding of the snake game engine in `gameLogic.h`
(repository code_crafters): the simulation engine, its per-tick
transition `update`, the snapshot model `GameState`, and the
double-buffered snapshot mailbox (`publishState` / `getGameState`).

Machine `int` values are modelled as `Int`; `vector<vector<int>>`
boards as `List (List Nat)` of cell values; the `mt19937` +
`uniform_int_distribution` draw is modelled by an oracle parameter
`choice : Nat` per call, reduced `% n` so that, quantifying over all
oracles, every possible in-range draw of the C++ RNG is covered.
-/

namespace SnakeGame

/-- Cell values of the C++ `CellType` enum: `EMPTY = 0`. -/
def EMPTY : Nat := 0

/-- Cell value `SNAKE = 1`. -/
def SNAKE : Nat := 1

/-- Cell value `FOOD = 2`. -/
def FOOD : Nat := 2

/-- Cell value `WALL = 3`. -/
def WALL : Nat := 3

/-- The C++ `Direction` enum. -/
inductive Direction where
  | UP
  | DOWN
  | LEFT
  | RIGHT
  | NONE
  deriving DecidableEq, Repr

/-- A board coordinate, `(row, column)`, as C++ `pair<int,int>`. -/
abbrev Pos := Int × Int

/-- Read a board cell; out-of-range reads (which the C++ never performs
on the guarded paths) default to `EMPTY`. -/
def getCell (b : List (List Nat)) (p : Pos) : Nat :=
  if 0 ≤ p.1 ∧ 0 ≤ p.2 then (b.getD p.1.toNat []).getD p.2.toNat EMPTY else EMPTY

/-- Write a board cell (`board[r][c] = v`); writes outside the lists
are no-ops (the C++ only ever writes in-range cells on reachable paths). -/
def setCell (b : List (List Nat)) (p : Pos) (v : Nat) : List (List Nat) :=
  if 0 ≤ p.1 ∧ 0 ≤ p.2 then b.set p.1.toNat ((b.getD p.1.toNat []).set p.2.toNat v) else b

/-- The C++ `GameState` snapshot struct. -/
structure GameState where
  board : List (List Nat)
  rows : Int
  cols : Int
  score : Int
  gameOver : Bool
  food : Pos
  foodExists : Bool
  snake : List Pos
  snakeLength : Int
  deriving DecidableEq, Repr

/-- The zero-initialized `GameState` made by `make_shared<GameState>()`
in the `SnakeGameLogic` constructor. -/
def GameState.zeroed : GameState :=
  { board := [], rows := 0, cols := 0, score := 0, gameOver := false,
    food := (0, 0), foodExists := false, snake := [], snakeLength := 0 }

/-- The whole C++ `SnakeGameLogic` object: the two snapshot buffers and
which of them `writeBuffer` / `currentState` point at, plus the engine
private fields. The `shared_ptr` values `writeBuffer` and `currentState`
are modelled by buffer identities (`true` = buffer A). `readBuffer` is
always the buffer `writeIsA` does not name, so it needs no field. -/
structure SnakeGameLogic where
  bufA : GameState
  bufB : GameState
  writeIsA : Bool
  currentIsA : Bool
  snake : List Pos
  board : List (List Nat)
  rows : Int
  cols : Int
  score : Int
  pointsPerFood : Int
  gameOver : Bool
  food : Pos
  foodExists : Bool
  snakeGrowth : Int
  snakeStartingLength : Int
  currentDirection : Direction
  nextDirection : Direction
  atomicDirection : Direction
  deriving DecidableEq, Repr

/-- The `SnakeGameLogic()` constructor: fresh zeroed buffers, both
pointers at buffer A, `atomicDirection = NONE`. The engine `int` fields
are indeterminate in C++ until `initializeBoard` runs; this concrete
constructor zeroes them (theorems about post-init behavior quantify over
arbitrary pre-init states instead of relying on these values). -/
def SnakeGameLogic.construct : SnakeGameLogic :=
  { bufA := GameState.zeroed, bufB := GameState.zeroed, writeIsA := true, currentIsA := true,
    snake := [], board := [], rows := 0, cols := 0, score := 0, pointsPerFood := 0,
    gameOver := false, food := (0, 0), foodExists := false, snakeGrowth := 0,
    snakeStartingLength := 0, currentDirection := Direction.NONE,
    nextDirection := Direction.NONE, atomicDirection := Direction.NONE }

/-- C++ `isValidDirectionChange`: rejects exactly the four 180-degree
reversals. -/
def isValidDirectionChange (cur newDir : Direction) : Bool :=
  match cur, newDir with
  | Direction.UP, Direction.DOWN => false
  | Direction.DOWN, Direction.UP => false
  | Direction.LEFT, Direction.RIGHT => false
  | Direction.RIGHT, Direction.LEFT => false
  | _, _ => true

/-- One step of a coordinate in a direction, as in `getNextHeadPosition`. -/
def stepDir (d : Direction) (p : Pos) : Pos :=
  match d with
  | Direction.UP => (p.1 - 1, p.2)
  | Direction.DOWN => (p.1 + 1, p.2)
  | Direction.LEFT => (p.1, p.2 - 1)
  | Direction.RIGHT => (p.1, p.2 + 1)
  | Direction.NONE => p

/-- C++ `getNextHeadPosition`: step `snake.front()` along
`currentDirection`. -/
def getNextHeadPosition (s : SnakeGameLogic) : Pos :=
  stepDir s.currentDirection (s.snake.headD (0, 0))

/-- C++ `isInBounds`. -/
def isInBounds (s : SnakeGameLogic) (p : Pos) : Bool :=
  decide (0 ≤ p.1 ∧ p.1 < s.rows ∧ 0 ≤ p.2 ∧ p.2 < s.cols)

/-- C++ `checkSelfCollision`: membership among segments with index
at least 1 (all of the body except the head, tail included). -/
def checkSelfCollision (s : SnakeGameLogic) (p : Pos) : Bool :=
  decide (p ∈ s.snake.drop 1)

/-- C++ `moveSnake`: push the new head, mark its cell `SNAKE`; then
either consume one unit of pending growth, or pop the tail and clear
its cell. -/
def moveSnake (s : SnakeGameLogic) (newHead : Pos) : SnakeGameLogic :=
  let snake1 := newHead :: s.snake
  let board1 := setCell s.board newHead SNAKE
  if s.snakeGrowth > 0 then
    { s with snake := snake1, board := board1, snakeGrowth := s.snakeGrowth - 1 }
  else
    { s with snake := snake1.dropLast,
             board := setCell board1 (snake1.getLastD (0, 0)) EMPTY }

/-- The list of empty cells collected by `placeRandomFood` (and
`placeWalls`): row-major scan of `board[r][c] == EMPTY`. -/
def emptyCellsList (b : List (List Nat)) (rows cols : Int) : List Pos :=
  (List.range rows.toNat).flatMap (fun (r : Nat) =>
    (List.range cols.toNat).filterMap (fun (c : Nat) =>
      if getCell b ((r : Int), (c : Int)) = EMPTY then some ((r : Int), (c : Int)) else none))

/-- C++ `placeRandomFood`: if no empty cell exists, clear `foodExists`;
otherwise draw a uniform index into the empty-cell list (the draw is the
oracle value `choice`, reduced modulo the list length exactly as the
uniform distribution confines the C++ draw to `[0, emptyCount)`), put
the food there and mark the cell `FOOD`. -/
def placeRandomFood (choice : Nat) (s : SnakeGameLogic) : SnakeGameLogic :=
  let ec := emptyCellsList s.board s.rows s.cols
  if ec = [] then { s with foodExists := false }
  else
    let f := ec.getD (choice % ec.length) (0, 0)
    { s with food := f, board := setCell s.board f FOOD, foodExists := true }

/-- C++ `placeWalls`: repeatedly pick an empty cell and mark it `WALL`.
This function has no caller anywhere in the repository; it is embedded
for completeness. -/
def placeWalls (choices : List Nat) (s : SnakeGameLogic) : SnakeGameLogic :=
  choices.foldl (fun st ch =>
    let ec := emptyCellsList st.board st.rows st.cols
    if ec = [] then st
    else { st with board := setCell st.board (ec.getD (ch % ec.length) (0, 0)) WALL }) s

/-- The snapshot value `publishState` copies the engine fields into. -/
def mkSnapshot (s : SnakeGameLogic) : GameState :=
  { board := s.board, rows := s.rows, cols := s.cols, score := s.score,
    gameOver := s.gameOver, food := s.food, foodExists := s.foodExists,
    snake := s.snake, snakeLength := (s.snake.length : Int) }

/-- C++ `publishState`: copy the engine state into `writeBuffer`, make
`currentState` point at it, then swap `writeBuffer` and `readBuffer`. -/
def publishState (s : SnakeGameLogic) : SnakeGameLogic :=
  if s.writeIsA then { s with bufA := mkSnapshot s, currentIsA := true, writeIsA := false }
  else { s with bufB := mkSnapshot s, currentIsA := false, writeIsA := true }

/-- C++ `getGameState`: the shared-pointer value a reader obtains, i.e.
the identity of the buffer `currentState` names right now. -/
def getGameState (s : SnakeGameLogic) : Bool := s.currentIsA

/-- Dereference a held snapshot pointer at a (possibly later) system
state: the contents of the pointed-to buffer at that time. -/
def derefState (s : SnakeGameLogic) (ptr : Bool) : GameState :=
  if ptr then s.bufA else s.bufB

/-- The contents of the currently published snapshot. -/
def currentSnapshot (s : SnakeGameLogic) : GameState :=
  derefState s (getGameState s)

/-- The position of snake segment `i` laid out by `initializeBoard`:
start from the board center and extend backward along the initial
direction (C++ switch: RIGHT subtracts from the column, LEFT adds,
UP adds to the row, DOWN subtracts). -/
def segPos (rows cols : Int) (d : Direction) (i : Nat) : Pos :=
  let r := rows / 2
  let c := cols / 2
  match d with
  | Direction.RIGHT => (r, c - (i : Int))
  | Direction.LEFT => (r, c + (i : Int))
  | Direction.UP => (r + (i : Int), c)
  | Direction.DOWN => (r - (i : Int), c)
  | Direction.NONE => (r, c)

/-- C++ `initializeBoard`: reset all engine fields, build a fresh
all-empty board, lay the snake segments out from the center, place one
random food (using the oracle `choice`) and publish the first snapshot. -/
def initializeBoard (rows cols startingLength pointsPerFood : Int) (d : Direction)
    (choice : Nat) (s : SnakeGameLogic) : SnakeGameLogic :=
  let s1 := { s with
    rows := rows, cols := cols, snakeStartingLength := startingLength,
    pointsPerFood := pointsPerFood, currentDirection := d, nextDirection := d,
    score := 0, gameOver := false, snakeGrowth := 0, foodExists := false,
    snake := ([] : List Pos),
    board := List.replicate rows.toNat (List.replicate cols.toNat EMPTY) }
  let segs := (List.range startingLength.toNat).map (segPos rows cols d)
  let s2 := { s1 with
    snake := segs,
    board := segs.foldl (fun b p => setCell b p SNAKE) s1.board }
  publishState (placeRandomFood choice s2)

/-- C++ `setDirection`: store the request into the atomic pending cell. -/
def setDirection (d : Direction) (s : SnakeGameLogic) : SnakeGameLogic :=
  { s with atomicDirection := d }

/-- Step 1-2 of a tick: exchange the pending direction with `NONE`,
adopt it into `nextDirection` if it is a real, non-reversal direction,
and set `currentDirection := nextDirection`. -/
def applyDirection (s : SnakeGameLogic) : SnakeGameLogic :=
  let inputDir := s.atomicDirection
  let s1 := { s with atomicDirection := Direction.NONE }
  let s2 := if inputDir ≠ Direction.NONE ∧ isValidDirectionChange s1.currentDirection inputDir = true
            then { s1 with nextDirection := inputDir } else s1
  { s2 with currentDirection := s2.nextDirection }

/-- Steps 5-9 of a tick, after the terminal checks have passed: food
collision bookkeeping, `moveSnake`, food replacement, the board-full
stalemate check, and publication. -/
def tickMove (choice : Nat) (s3 : SnakeGameLogic) (newHead : Pos) : Bool × SnakeGameLogic :=
  let s4 := if s3.foodExists = true ∧ newHead = s3.food then
      { s3 with
        snakeGrowth := s3.snakeGrowth + 1, score := s3.score + s3.pointsPerFood,
        foodExists := false }
    else s3
  let s5 := moveSnake s4 newHead
  let s6 := if s5.foodExists = false then placeRandomFood choice s5 else s5
  if s6.foodExists = false ∧ s6.snakeGrowth = 0 then
    (false, publishState { s6 with gameOver := true })
  else (true, publishState s6)

/-- C++ `update`: the per-tick transition. Returns the `bool` result of
`update()` and the resulting object state. -/
def update (choice : Nat) (s : SnakeGameLogic) : Bool × SnakeGameLogic :=
  if s.gameOver = true then (false, s)
  else
    let s3 := applyDirection s
    let newHead := getNextHeadPosition s3
    if isInBounds s3 newHead = false then (false, publishState { s3 with gameOver := true })
    else if getCell s3.board newHead = WALL then (false, publishState { s3 with gameOver := true })
    else if checkSelfCollision s3 newHead = true then (false, publishState { s3 with gameOver := true })
    else tickMove choice s3 newHead

/-- C++ `getCellType`: bounds-guarded lookup into the current snapshot,
defaulting to `WALL` outside the snapshot dimensions. -/
def getCellType (s : SnakeGameLogic) (r c : Int) : Nat :=
  let st := currentSnapshot s
  if 0 ≤ r ∧ r < st.rows ∧ 0 ≤ c ∧ c < st.cols then
    (st.board.getD r.toNat []).getD c.toNat EMPTY
  else WALL

/-- The next head position a tick would use, including the
direction-intake phase: what step 3 computes inside `update`. -/
def nextHeadOf (s : SnakeGameLogic) : Pos :=
  getNextHeadPosition (applyDirection s)

/-- The direction opposite to a given one (Up-Down, Left-Right), the
notion the spec's reversal rule is stated with. -/
def oppositeDir : Direction → Direction
  | Direction.UP => Direction.DOWN
  | Direction.DOWN => Direction.UP
  | Direction.LEFT => Direction.RIGHT
  | Direction.RIGHT => Direction.LEFT
  | Direction.NONE => Direction.NONE

/-- The parameters one run of the game is initialized with. -/
structure InitParams where
  rows : Int
  cols : Int
  len : Int
  ppf : Int
  dir : Direction
  deriving DecidableEq, Repr

/-- States reachable through the public interface: `initializeBoard`
from an arbitrary pre-init object, then any interleaving of `update`
ticks (with arbitrary RNG draws) and `setDirection` requests. External
callers can only name the four real directions (the `Direction` enum is
private; only the four static getters leak values), so both the initial
direction and requests exclude `NONE` exactly when the theorem using
this relation requires it. -/
inductive Reachable (P : InitParams) : SnakeGameLogic → Prop where
  | init (choice : Nat) (s0 : SnakeGameLogic) :
      Reachable P (initializeBoard P.rows P.cols P.len P.ppf P.dir choice s0)
  | step (choice : Nat) (s : SnakeGameLogic) (h : Reachable P s) :
      Reachable P (update choice s).2
  | dirReq (d : Direction) (hd : d ≠ Direction.NONE) (s : SnakeGameLogic)
      (h : Reachable P s) : Reachable P (setDirection d s)

/-- The `initialize` precondition from the spec: positive dimensions and
length, a real initial direction, and a starting snake that fits on the
board. -/
def ValidInit (P : InitParams) : Prop :=
  0 < P.rows ∧ 0 < P.cols ∧ 0 < P.len ∧ P.dir ≠ Direction.NONE ∧
  ∀ i < P.len.toNat,
    0 ≤ (segPos P.rows P.cols P.dir i).1 ∧ (segPos P.rows P.cols P.dir i).1 < P.rows ∧
    0 ≤ (segPos P.rows P.cols P.dir i).2 ∧ (segPos P.rows P.cols P.dir i).2 < P.cols

instance (P : InitParams) : Decidable (ValidInit P) := by
  unfold ValidInit
  infer_instance

/-- In-bounds predicate on positions, relative to a system state's
dimensions (the `Prop` version of `isInBounds`). -/
def inB (s : SnakeGameLogic) (p : Pos) : Prop :=
  0 ≤ p.1 ∧ p.1 < s.rows ∧ 0 ≤ p.2 ∧ p.2 < s.cols

instance (s : SnakeGameLogic) (p : Pos) : Decidable (inB s p) := by
  unfold inB
  infer_instance

/-- A position indexes an actual cell of the board lists. -/
def InDims (b : List (List Nat)) (p : Pos) : Prop :=
  0 ≤ p.1 ∧ p.1.toNat < b.length ∧ 0 ≤ p.2 ∧ p.2.toNat < (b.getD p.1.toNat []).length

/-! ### The engine invariant -/

/-- Invariant of the engine-private fields, relative to the parameters
the game was initialized with: board and snake kept in lockstep, at most
one food cell, no walls, dimensions and score bookkeeping, direction
sanity, and zero pending growth between ticks. -/
structure EngineInv (P : InitParams) (s : SnakeGameLogic) : Prop where
  rows_eq : s.rows = P.rows
  cols_eq : s.cols = P.cols
  ppf_eq : s.pointsPerFood = P.ppf
  start_eq : s.snakeStartingLength = P.len
  brd_len : s.board.length = s.rows.toNat
  brd_row : ∀ row ∈ s.board, row.length = s.cols.toNat
  sn_ne : s.snake ≠ []
  sn_nd : s.snake.Nodup
  sn_inb : ∀ p ∈ s.snake, inB s p
  cell_sn : ∀ p : Pos, getCell s.board p = SNAKE ↔ p ∈ s.snake
  cell_fd : ∀ p : Pos, getCell s.board p = FOOD ↔ (s.foodExists = true ∧ p = s.food)
  fd_inb : s.foodExists = true → inB s s.food
  no_wall : ∀ p : Pos, getCell s.board p ≠ WALL
  gr0 : s.snakeGrowth = 0
  dir_ne : s.currentDirection ≠ Direction.NONE
  dir_eq : s.nextDirection = s.currentDirection
  len_ge : P.len ≤ (s.snake.length : Int)
  score_eq : s.score = P.ppf * ((s.snake.length : Int) - P.len)

/-- The full invariant: the engine fields are well formed and the
currently published snapshot is an exact copy of them. -/
def Inv (P : InitParams) (s : SnakeGameLogic) : Prop :=
  EngineInv P s ∧ currentSnapshot s = mkSnapshot s

/-! ### Board cell lemmas -/

theorem list_getD_set_self {α} (l : List α) (n : Nat) (a d : α) (h : n < l.length) :
    (l.set n a).getD n d = a := by
  simp [List.getD, List.getElem?_set, h]

theorem list_getD_set_ne {α} (l : List α) (n m : Nat) (a d : α) (h : m ≠ n) :
    (l.set n a).getD m d = l.getD m d := by
  simp [List.getD, List.getElem?_set, Ne.symm h]

theorem list_getD_of_le {α} (l : List α) (n : Nat) (d : α) (h : l.length ≤ n) :
    l.getD n d = d := by
  simp [List.getD, List.getElem?_eq_none h]

theorem list_set_getD_self {α} (l : List α) (n : Nat) (d : α) (h : n < l.length) :
    l.set n (l.getD n d) = l := by
  apply List.ext_getElem?
  intro m
  by_cases hm : m = n
  · subst hm
    simp [List.getElem?_set, h, List.getD, List.getElem?_eq_getElem h]
  · simp [List.getElem?_set, Ne.symm hm]

theorem length_setCell (b : List (List Nat)) (q : Pos) (v : Nat) :
    (setCell b q v).length = b.length := by
  unfold setCell
  split <;> simp

theorem row_length_setCell (b : List (List Nat)) (q : Pos) (v : Nat) (i : Nat) :
    ((setCell b q v).getD i []).length = (b.getD i []).length := by
  unfold setCell
  split
  · by_cases hi : i = q.1.toNat
    · rw [hi]
      by_cases hl : q.1.toNat < b.length
      · rw [list_getD_set_self _ _ _ _ hl]
        simp
      · rw [List.set_eq_of_length_le (Nat.le_of_not_lt hl)]
    · rw [list_getD_set_ne _ _ _ _ _ hi]
  · rfl

theorem setCell_out_of_dims (b : List (List Nat)) (q : Pos) (v : Nat) (h : ¬ InDims b q) :
    setCell b q v = b := by
  unfold setCell
  unfold InDims at h
  split
  · rename_i hg
    by_cases h1 : q.1.toNat < b.length
    · by_cases h2 : q.2.toNat < (b.getD q.1.toNat []).length
      · exact absurd ⟨hg.1, h1, hg.2, h2⟩ h
      · rw [List.set_eq_of_length_le (Nat.le_of_not_lt h2), list_set_getD_self _ _ _ h1]
    · rw [List.set_eq_of_length_le (Nat.le_of_not_lt h1)]
  · rfl

theorem getCell_neg (b : List (List Nat)) (p : Pos) (h : ¬(0 ≤ p.1 ∧ 0 ≤ p.2)) :
    getCell b p = EMPTY := by
  unfold getCell
  exact if_neg h

theorem getCell_out_of_dims (b : List (List Nat)) (p : Pos) (h : ¬ InDims b p) :
    getCell b p = EMPTY := by
  unfold getCell
  unfold InDims at h
  split
  · rename_i hg
    by_cases h1 : p.1.toNat < b.length
    · by_cases h2 : p.2.toNat < (b.getD p.1.toNat []).length
      · exact absurd ⟨hg.1, h1, hg.2, h2⟩ h
      · exact list_getD_of_le _ _ _ (Nat.le_of_not_lt h2)
    · rw [list_getD_of_le _ _ _ (Nat.le_of_not_lt h1)]
      simp [List.getD]
  · rfl

theorem getCell_setCell_self (b : List (List Nat)) (q : Pos) (v : Nat) (h : InDims b q) :
    getCell (setCell b q v) q = v := by
  obtain ⟨h1, h2, h3, h4⟩ := h
  unfold getCell setCell
  rw [if_pos ⟨h1, h3⟩, if_pos ⟨h1, h3⟩, list_getD_set_self _ _ _ _ h2,
    list_getD_set_self _ _ _ _ h4]

theorem getCell_setCell_ne (b : List (List Nat)) (q p : Pos) (v : Nat) (h : p ≠ q) :
    getCell (setCell b q v) p = getCell b p := by
  unfold getCell setCell
  by_cases hq : 0 ≤ q.1 ∧ 0 ≤ q.2
  · rw [if_pos hq]
    by_cases hp : 0 ≤ p.1 ∧ 0 ≤ p.2
    · rw [if_pos hp, if_pos hp]
      by_cases hr : p.1.toNat = q.1.toNat
      · have hr' : p.1 = q.1 := by omega
        have hc : p.2 ≠ q.2 := by
          intro hc
          exact h (Prod.ext hr' hc)
        have hc' : p.2.toNat ≠ q.2.toNat := by omega
        rw [hr]
        by_cases hl : q.1.toNat < b.length
        · rw [list_getD_set_self _ _ _ _ hl, list_getD_set_ne _ _ _ _ _ hc']
        · rw [List.set_eq_of_length_le (Nat.le_of_not_lt hl)]
      · rw [list_getD_set_ne _ _ _ _ _ hr]
    · rw [if_neg hp, if_neg hp]
  · rw [if_neg hq]

theorem getCell_setCell_cases (b : List (List Nat)) (q p : Pos) (v : Nat) :
    getCell (setCell b q v) p = v ∨ getCell (setCell b q v) p = getCell b p := by
  by_cases hpq : p = q
  · subst hpq
    by_cases hd : InDims b p
    · exact Or.inl (getCell_setCell_self b p v hd)
    · rw [setCell_out_of_dims b p v hd]
      exact Or.inr rfl
  · exact Or.inr (getCell_setCell_ne b q p v hpq)

theorem list_getD_replicate {α} (n : Nat) (a d : α) (i : Nat) :
    (List.replicate n a).getD i d = if i < n then a else d := by
  by_cases h : i < n
  · simp [List.getD, List.getElem?_replicate, h]
  · rw [list_getD_of_le _ _ _ (by simpa using Nat.le_of_not_lt h), if_neg h]

theorem getCell_replicate (n m : Nat) (p : Pos) :
    getCell (List.replicate n (List.replicate m EMPTY)) p = EMPTY := by
  unfold getCell
  split
  · rw [list_getD_replicate]
    split
    · rw [list_getD_replicate]
      split <;> rfl
    · simp [List.getD]
  · rfl

/-! ### Operation shape lemmas -/

@[simp] theorem publishState_snake (s : SnakeGameLogic) : (publishState s).snake = s.snake := by
  unfold publishState
  split <;> rfl

@[simp] theorem publishState_board (s : SnakeGameLogic) : (publishState s).board = s.board := by
  unfold publishState
  split <;> rfl

@[simp] theorem publishState_rows (s : SnakeGameLogic) : (publishState s).rows = s.rows := by
  unfold publishState
  split <;> rfl

@[simp] theorem publishState_cols (s : SnakeGameLogic) : (publishState s).cols = s.cols := by
  unfold publishState
  split <;> rfl

@[simp] theorem publishState_score (s : SnakeGameLogic) : (publishState s).score = s.score := by
  unfold publishState
  split <;> rfl

@[simp] theorem publishState_ppf (s : SnakeGameLogic) :
    (publishState s).pointsPerFood = s.pointsPerFood := by
  unfold publishState
  split <;> rfl

@[simp] theorem publishState_gameOver (s : SnakeGameLogic) :
    (publishState s).gameOver = s.gameOver := by
  unfold publishState
  split <;> rfl

@[simp] theorem publishState_food (s : SnakeGameLogic) : (publishState s).food = s.food := by
  unfold publishState
  split <;> rfl

@[simp] theorem publishState_foodExists (s : SnakeGameLogic) :
    (publishState s).foodExists = s.foodExists := by
  unfold publishState
  split <;> rfl

@[simp] theorem publishState_growth (s : SnakeGameLogic) :
    (publishState s).snakeGrowth = s.snakeGrowth := by
  unfold publishState
  split <;> rfl

@[simp] theorem publishState_startLen (s : SnakeGameLogic) :
    (publishState s).snakeStartingLength = s.snakeStartingLength := by
  unfold publishState
  split <;> rfl

@[simp] theorem publishState_curDir (s : SnakeGameLogic) :
    (publishState s).currentDirection = s.currentDirection := by
  unfold publishState
  split <;> rfl

@[simp] theorem publishState_nextDir (s : SnakeGameLogic) :
    (publishState s).nextDirection = s.nextDirection := by
  unfold publishState
  split <;> rfl

@[simp] theorem publishState_atomicDir (s : SnakeGameLogic) :
    (publishState s).atomicDirection = s.atomicDirection := by
  unfold publishState
  split <;> rfl

@[simp] theorem currentSnapshot_publishState (s : SnakeGameLogic) :
    currentSnapshot (publishState s) = mkSnapshot s := by
  unfold currentSnapshot derefState getGameState publishState
  cases hw : s.writeIsA <;> simp [hw]

@[simp] theorem moveSnake_rows (s : SnakeGameLogic) (nh : Pos) :
    (moveSnake s nh).rows = s.rows := by
  unfold moveSnake
  split <;> rfl

@[simp] theorem moveSnake_cols (s : SnakeGameLogic) (nh : Pos) :
    (moveSnake s nh).cols = s.cols := by
  unfold moveSnake
  split <;> rfl

@[simp] theorem moveSnake_score (s : SnakeGameLogic) (nh : Pos) :
    (moveSnake s nh).score = s.score := by
  unfold moveSnake
  split <;> rfl

@[simp] theorem moveSnake_ppf (s : SnakeGameLogic) (nh : Pos) :
    (moveSnake s nh).pointsPerFood = s.pointsPerFood := by
  unfold moveSnake
  split <;> rfl

@[simp] theorem moveSnake_gameOver (s : SnakeGameLogic) (nh : Pos) :
    (moveSnake s nh).gameOver = s.gameOver := by
  unfold moveSnake
  split <;> rfl

@[simp] theorem moveSnake_food (s : SnakeGameLogic) (nh : Pos) :
    (moveSnake s nh).food = s.food := by
  unfold moveSnake
  split <;> rfl

@[simp] theorem moveSnake_foodExists (s : SnakeGameLogic) (nh : Pos) :
    (moveSnake s nh).foodExists = s.foodExists := by
  unfold moveSnake
  split <;> rfl

@[simp] theorem moveSnake_startLen (s : SnakeGameLogic) (nh : Pos) :
    (moveSnake s nh).snakeStartingLength = s.snakeStartingLength := by
  unfold moveSnake
  split <;> rfl

@[simp] theorem moveSnake_curDir (s : SnakeGameLogic) (nh : Pos) :
    (moveSnake s nh).currentDirection = s.currentDirection := by
  unfold moveSnake
  split <;> rfl

@[simp] theorem moveSnake_nextDir (s : SnakeGameLogic) (nh : Pos) :
    (moveSnake s nh).nextDirection = s.nextDirection := by
  unfold moveSnake
  split <;> rfl

@[simp] theorem moveSnake_atomicDir (s : SnakeGameLogic) (nh : Pos) :
    (moveSnake s nh).atomicDirection = s.atomicDirection := by
  unfold moveSnake
  split <;> rfl

@[simp] theorem moveSnake_bufA (s : SnakeGameLogic) (nh : Pos) :
    (moveSnake s nh).bufA = s.bufA := by
  unfold moveSnake
  split <;> rfl

@[simp] theorem moveSnake_bufB (s : SnakeGameLogic) (nh : Pos) :
    (moveSnake s nh).bufB = s.bufB := by
  unfold moveSnake
  split <;> rfl

@[simp] theorem moveSnake_writeIsA (s : SnakeGameLogic) (nh : Pos) :
    (moveSnake s nh).writeIsA = s.writeIsA := by
  unfold moveSnake
  split <;> rfl

@[simp] theorem moveSnake_currentIsA (s : SnakeGameLogic) (nh : Pos) :
    (moveSnake s nh).currentIsA = s.currentIsA := by
  unfold moveSnake
  split <;> rfl

theorem moveSnake_grow (s : SnakeGameLogic) (nh : Pos) (h : s.snakeGrowth > 0) :
    (moveSnake s nh).snake = nh :: s.snake ∧
    (moveSnake s nh).board = setCell s.board nh SNAKE ∧
    (moveSnake s nh).snakeGrowth = s.snakeGrowth - 1 := by
  unfold moveSnake
  rw [if_pos h]
  exact ⟨rfl, rfl, rfl⟩

theorem moveSnake_pop (s : SnakeGameLogic) (nh : Pos) (h : ¬ s.snakeGrowth > 0) :
    (moveSnake s nh).snake = (nh :: s.snake).dropLast ∧
    (moveSnake s nh).board =
      setCell (setCell s.board nh SNAKE) ((nh :: s.snake).getLastD (0, 0)) EMPTY ∧
    (moveSnake s nh).snakeGrowth = s.snakeGrowth := by
  unfold moveSnake
  rw [if_neg h]
  exact ⟨rfl, rfl, rfl⟩

@[simp] theorem placeRandomFood_snake (choice : Nat) (s : SnakeGameLogic) :
    (placeRandomFood choice s).snake = s.snake := by
  unfold placeRandomFood
  dsimp only
  split <;> rfl

@[simp] theorem placeRandomFood_rows (choice : Nat) (s : SnakeGameLogic) :
    (placeRandomFood choice s).rows = s.rows := by
  unfold placeRandomFood
  dsimp only
  split <;> rfl

@[simp] theorem placeRandomFood_cols (choice : Nat) (s : SnakeGameLogic) :
    (placeRandomFood choice s).cols = s.cols := by
  unfold placeRandomFood
  dsimp only
  split <;> rfl

@[simp] theorem placeRandomFood_score (choice : Nat) (s : SnakeGameLogic) :
    (placeRandomFood choice s).score = s.score := by
  unfold placeRandomFood
  dsimp only
  split <;> rfl

@[simp] theorem placeRandomFood_ppf (choice : Nat) (s : SnakeGameLogic) :
    (placeRandomFood choice s).pointsPerFood = s.pointsPerFood := by
  unfold placeRandomFood
  dsimp only
  split <;> rfl

@[simp] theorem placeRandomFood_gameOver (choice : Nat) (s : SnakeGameLogic) :
    (placeRandomFood choice s).gameOver = s.gameOver := by
  unfold placeRandomFood
  dsimp only
  split <;> rfl

@[simp] theorem placeRandomFood_growth (choice : Nat) (s : SnakeGameLogic) :
    (placeRandomFood choice s).snakeGrowth = s.snakeGrowth := by
  unfold placeRandomFood
  dsimp only
  split <;> rfl

@[simp] theorem placeRandomFood_startLen (choice : Nat) (s : SnakeGameLogic) :
    (placeRandomFood choice s).snakeStartingLength = s.snakeStartingLength := by
  unfold placeRandomFood
  dsimp only
  split <;> rfl

@[simp] theorem placeRandomFood_curDir (choice : Nat) (s : SnakeGameLogic) :
    (placeRandomFood choice s).currentDirection = s.currentDirection := by
  unfold placeRandomFood
  dsimp only
  split <;> rfl

@[simp] theorem placeRandomFood_nextDir (choice : Nat) (s : SnakeGameLogic) :
    (placeRandomFood choice s).nextDirection = s.nextDirection := by
  unfold placeRandomFood
  dsimp only
  split <;> rfl

@[simp] theorem placeRandomFood_atomicDir (choice : Nat) (s : SnakeGameLogic) :
    (placeRandomFood choice s).atomicDirection = s.atomicDirection := by
  unfold placeRandomFood
  dsimp only
  split <;> rfl

@[simp] theorem placeRandomFood_bufA (choice : Nat) (s : SnakeGameLogic) :
    (placeRandomFood choice s).bufA = s.bufA := by
  unfold placeRandomFood
  dsimp only
  split <;> rfl

@[simp] theorem placeRandomFood_bufB (choice : Nat) (s : SnakeGameLogic) :
    (placeRandomFood choice s).bufB = s.bufB := by
  unfold placeRandomFood
  dsimp only
  split <;> rfl

@[simp] theorem placeRandomFood_writeIsA (choice : Nat) (s : SnakeGameLogic) :
    (placeRandomFood choice s).writeIsA = s.writeIsA := by
  unfold placeRandomFood
  dsimp only
  split <;> rfl

@[simp] theorem placeRandomFood_currentIsA (choice : Nat) (s : SnakeGameLogic) :
    (placeRandomFood choice s).currentIsA = s.currentIsA := by
  unfold placeRandomFood
  dsimp only
  split <;> rfl

theorem placeRandomFood_none (choice : Nat) (s : SnakeGameLogic)
    (h : emptyCellsList s.board s.rows s.cols = []) :
    placeRandomFood choice s = { s with foodExists := false } := by
  unfold placeRandomFood
  dsimp only
  rw [if_pos h]

theorem placeRandomFood_some (choice : Nat) (s : SnakeGameLogic)
    (h : emptyCellsList s.board s.rows s.cols ≠ []) :
    (placeRandomFood choice s).foodExists = true ∧
    (placeRandomFood choice s).food ∈ emptyCellsList s.board s.rows s.cols ∧
    (placeRandomFood choice s).board =
      setCell s.board ((placeRandomFood choice s).food) FOOD := by
  unfold placeRandomFood
  dsimp only
  rw [if_neg h]
  refine ⟨rfl, ?_, rfl⟩
  have hlt : choice % (emptyCellsList s.board s.rows s.cols).length <
      (emptyCellsList s.board s.rows s.cols).length :=
    Nat.mod_lt _ (List.length_pos.mpr h)
  rw [List.getD_eq_getElem _ _ hlt]
  exact List.getElem_mem hlt

@[simp] theorem applyDirection_snake (s : SnakeGameLogic) :
    (applyDirection s).snake = s.snake := by
  unfold applyDirection
  dsimp only
  split <;> rfl

@[simp] theorem applyDirection_board (s : SnakeGameLogic) :
    (applyDirection s).board = s.board := by
  unfold applyDirection
  dsimp only
  split <;> rfl

@[simp] theorem applyDirection_rows (s : SnakeGameLogic) :
    (applyDirection s).rows = s.rows := by
  unfold applyDirection
  dsimp only
  split <;> rfl

@[simp] theorem applyDirection_cols (s : SnakeGameLogic) :
    (applyDirection s).cols = s.cols := by
  unfold applyDirection
  dsimp only
  split <;> rfl

@[simp] theorem applyDirection_score (s : SnakeGameLogic) :
    (applyDirection s).score = s.score := by
  unfold applyDirection
  dsimp only
  split <;> rfl

@[simp] theorem applyDirection_ppf (s : SnakeGameLogic) :
    (applyDirection s).pointsPerFood = s.pointsPerFood := by
  unfold applyDirection
  dsimp only
  split <;> rfl

@[simp] theorem applyDirection_gameOver (s : SnakeGameLogic) :
    (applyDirection s).gameOver = s.gameOver := by
  unfold applyDirection
  dsimp only
  split <;> rfl

@[simp] theorem applyDirection_food (s : SnakeGameLogic) :
    (applyDirection s).food = s.food := by
  unfold applyDirection
  dsimp only
  split <;> rfl

@[simp] theorem applyDirection_foodExists (s : SnakeGameLogic) :
    (applyDirection s).foodExists = s.foodExists := by
  unfold applyDirection
  dsimp only
  split <;> rfl

@[simp] theorem applyDirection_growth (s : SnakeGameLogic) :
    (applyDirection s).snakeGrowth = s.snakeGrowth := by
  unfold applyDirection
  dsimp only
  split <;> rfl

@[simp] theorem applyDirection_startLen (s : SnakeGameLogic) :
    (applyDirection s).snakeStartingLength = s.snakeStartingLength := by
  unfold applyDirection
  dsimp only
  split <;> rfl

@[simp] theorem applyDirection_atomicDir (s : SnakeGameLogic) :
    (applyDirection s).atomicDirection = Direction.NONE := by
  unfold applyDirection
  dsimp only
  split <;> rfl

@[simp] theorem applyDirection_bufA (s : SnakeGameLogic) :
    (applyDirection s).bufA = s.bufA := by
  unfold applyDirection
  dsimp only
  split <;> rfl

@[simp] theorem applyDirection_bufB (s : SnakeGameLogic) :
    (applyDirection s).bufB = s.bufB := by
  unfold applyDirection
  dsimp only
  split <;> rfl

@[simp] theorem applyDirection_writeIsA (s : SnakeGameLogic) :
    (applyDirection s).writeIsA = s.writeIsA := by
  unfold applyDirection
  dsimp only
  split <;> rfl

@[simp] theorem applyDirection_currentIsA (s : SnakeGameLogic) :
    (applyDirection s).currentIsA = s.currentIsA := by
  unfold applyDirection
  dsimp only
  split <;> rfl

theorem applyDirection_dir (s : SnakeGameLogic) :
    (applyDirection s).currentDirection = (applyDirection s).nextDirection ∧
    ((applyDirection s).nextDirection = s.nextDirection ∨
      ((applyDirection s).nextDirection = s.atomicDirection ∧
        s.atomicDirection ≠ Direction.NONE)) := by
  unfold applyDirection
  dsimp only
  split
  · rename_i hcond
    exact ⟨rfl, Or.inr ⟨rfl, hcond.1⟩⟩
  · exact ⟨rfl, Or.inl rfl⟩

/-! ### Empty-cell and fold lemmas -/

theorem mem_emptyCellsList (b : List (List Nat)) (R C : Int) (p : Pos) :
    p ∈ emptyCellsList b R C ↔
      (0 ≤ p.1 ∧ p.1 < R ∧ 0 ≤ p.2 ∧ p.2 < C ∧ getCell b p = EMPTY) := by
  unfold emptyCellsList
  constructor
  · intro hmem
    obtain ⟨r, hrm, hp⟩ := List.mem_flatMap.mp hmem
    obtain ⟨c, hcm, hsome⟩ := List.mem_filterMap.mp hp
    rw [List.mem_range] at hrm hcm
    by_cases he : getCell b ((r : Int), (c : Int)) = EMPTY
    · rw [if_pos he] at hsome
      obtain rfl : ((r : Int), (c : Int)) = p := Option.some.inj hsome
      exact ⟨by omega, by omega, by omega, by omega, he⟩
    · rw [if_neg he] at hsome
      exact absurd hsome (by simp)
  · rintro ⟨h1, h2, h3, h4, h5⟩
    apply List.mem_flatMap.mpr
    refine ⟨p.1.toNat, List.mem_range.mpr (by omega), ?_⟩
    apply List.mem_filterMap.mpr
    refine ⟨p.2.toNat, List.mem_range.mpr (by omega), ?_⟩
    have e1 : ((p.1.toNat : Int), (p.2.toNat : Int)) = p := by
      obtain ⟨a, b⟩ := p
      simp only [Prod.mk.injEq]
      constructor <;> omega
    rw [e1, if_pos h5]

theorem InDims_setCell (b : List (List Nat)) (q : Pos) (v : Nat) (p : Pos) :
    InDims (setCell b q v) p ↔ InDims b p := by
  unfold InDims
  rw [length_setCell, row_length_setCell]

theorem getCell_foldl_setCell (v : Nat) (segs : List Pos) :
    ∀ (b : List (List Nat)), (∀ q ∈ segs, InDims b q) →
      ∀ p, getCell (segs.foldl (fun bb q => setCell bb q v) b) p =
        if p ∈ segs then v else getCell b p := by
  induction segs with
  | nil =>
    intro b _ p
    simp
  | cons a rest ih =>
    intro b hin p
    rw [List.foldl_cons]
    have hin' : ∀ q ∈ rest, InDims (setCell b a v) q := by
      intro q hq
      rw [InDims_setCell]
      exact hin q (List.mem_cons_of_mem a hq)
    rw [ih (setCell b a v) hin' p]
    by_cases hp : p ∈ rest
    · rw [if_pos hp, if_pos (List.mem_cons_of_mem a hp)]
    · rw [if_neg hp]
      by_cases hpa : p = a
      · subst hpa
        rw [getCell_setCell_self b p v (hin p (List.mem_cons_self p rest))]
        rw [if_pos (List.mem_cons_self p rest)]
      · rw [getCell_setCell_ne b a p v hpa]
        rw [if_neg (by simp [hpa, hp])]

theorem length_foldl_setCell (v : Nat) (segs : List Pos) :
    ∀ (b : List (List Nat)),
      (segs.foldl (fun bb q => setCell bb q v) b).length = b.length := by
  induction segs with
  | nil => intro b; rfl
  | cons a rest ih =>
    intro b
    rw [List.foldl_cons, ih, length_setCell]

theorem row_length_foldl_setCell (v : Nat) (segs : List Pos) :
    ∀ (b : List (List Nat)) (i : Nat),
      ((segs.foldl (fun bb q => setCell bb q v) b).getD i []).length =
        (b.getD i []).length := by
  induction segs with
  | nil => intro b i; rfl
  | cons a rest ih =>
    intro b i
    rw [List.foldl_cons, ih, row_length_setCell]

theorem list_getD_mem {α} (l : List α) (i : Nat) (d : α) (h : i < l.length) :
    l.getD i d ∈ l := by
  rw [List.getD_eq_getElem l d h]
  exact List.getElem_mem h

theorem inDims_of_inB (P : InitParams) (s : SnakeGameLogic) (h : EngineInv P s) (p : Pos)
    (hp : inB s p) : InDims s.board p := by
  obtain ⟨h1, h2, h3, h4⟩ := hp
  have hl : p.1.toNat < s.board.length := by
    rw [h.brd_len]
    omega
  refine ⟨h1, hl, h3, ?_⟩
  have hrow := h.brd_row _ (list_getD_mem s.board p.1.toNat [] hl)
  rw [hrow]
  omega

theorem mkSnapshot_publishState (s : SnakeGameLogic) :
    mkSnapshot (publishState s) = mkSnapshot s := by
  unfold mkSnapshot
  simp

theorem engineInv_congr (P : InitParams) (s t : SnakeGameLogic) (h : EngineInv P s)
    (hb : t.board = s.board) (hsn : t.snake = s.snake) (hr : t.rows = s.rows)
    (hc : t.cols = s.cols) (hsc : t.score = s.score) (hpf : t.pointsPerFood = s.pointsPerFood)
    (hf : t.food = s.food) (hfe : t.foodExists = s.foodExists)
    (hgr : t.snakeGrowth = s.snakeGrowth) (hsl : t.snakeStartingLength = s.snakeStartingLength)
    (hcd : t.currentDirection = s.currentDirection) (hnd : t.nextDirection = s.nextDirection) :
    EngineInv P t := by
  have hinb : ∀ p : Pos, inB t p ↔ inB s p := by
    intro p
    unfold inB
    rw [hr, hc]
  refine ⟨?_, ?_, ?_, ?_, ?_, ?_, ?_, ?_, ?_, ?_, ?_, ?_, ?_, ?_, ?_, ?_, ?_, ?_⟩
  · rw [hr, h.rows_eq]
  · rw [hc, h.cols_eq]
  · rw [hpf, h.ppf_eq]
  · rw [hsl, h.start_eq]
  · rw [hb, hr, h.brd_len]
  · rw [hb, hc]
    exact h.brd_row
  · rw [hsn]
    exact h.sn_ne
  · rw [hsn]
    exact h.sn_nd
  · intro p hp
    rw [hsn] at hp
    rw [hinb]
    exact h.sn_inb p hp
  · intro p
    rw [hb, hsn]
    exact h.cell_sn p
  · intro p
    rw [hb, hfe, hf]
    exact h.cell_fd p
  · intro hfet
    rw [hf, hinb]
    exact h.fd_inb (hfe ▸ hfet)
  · intro p
    rw [hb]
    exact h.no_wall p
  · rw [hgr, h.gr0]
  · rw [hcd]
    exact h.dir_ne
  · rw [hnd, hcd, h.dir_eq]
  · rw [hsn]
    exact h.len_ge
  · rw [hsc, hsn, h.score_eq]

theorem inv_publish (P : InitParams) (s : SnakeGameLogic) (h : EngineInv P s) :
    Inv P (publishState s) := by
  constructor
  · exact engineInv_congr P s (publishState s) h (by simp) (by simp) (by simp) (by simp)
      (by simp) (by simp) (by simp) (by simp) (by simp) (by simp) (by simp) (by simp)
  · rw [currentSnapshot_publishState, mkSnapshot_publishState]

/-! ### Board and snake synchronization under a move -/

theorem stepDir_ne (d : Direction) (hd : d ≠ Direction.NONE) (p : Pos) : stepDir d p ≠ p := by
  cases d with
  | UP =>
    intro hcontra
    have h1 : p.1 - 1 = p.1 := congrArg Prod.fst hcontra
    omega
  | DOWN =>
    intro hcontra
    have h1 : p.1 + 1 = p.1 := congrArg Prod.fst hcontra
    omega
  | LEFT =>
    intro hcontra
    have h1 : p.2 - 1 = p.2 := congrArg Prod.snd hcontra
    omega
  | RIGHT =>
    intro hcontra
    have h1 : p.2 + 1 = p.2 := congrArg Prod.snd hcontra
    omega
  | NONE => exact absurd rfl hd

theorem sync_push (b : List (List Nat)) (sn : List Pos) (nh : Pos)
    (hsync : ∀ p, getCell b p = SNAKE ↔ p ∈ sn) (hnh : InDims b nh) (p : Pos) :
    getCell (setCell b nh SNAKE) p = SNAKE ↔ p ∈ nh :: sn := by
  by_cases hpn : p = nh
  · subst hpn
    rw [getCell_setCell_self b p SNAKE hnh]
    simp
  · rw [getCell_setCell_ne b nh p SNAKE hpn, hsync p, List.mem_cons]
    simp [hpn]

theorem sync_pop (b : List (List Nat)) (sn : List Pos) (nh : Pos)
    (hsync : ∀ p, getCell b p = SNAKE ↔ p ∈ sn)
    (hnd : sn.Nodup) (hne : sn ≠ []) (hnh : InDims b nh) (hnot : nh ∉ sn)
    (htl : InDims b (sn.getLast hne)) (p : Pos) :
    getCell (setCell (setCell b nh SNAKE) (sn.getLast hne) EMPTY) p = SNAKE ↔
      p ∈ (nh :: sn).dropLast := by
  have hdl : (nh :: sn).dropLast = nh :: sn.dropLast := List.dropLast_cons_of_ne_nil hne
  have htl_mem : sn.getLast hne ∈ sn := List.getLast_mem hne
  have htl_ne_nh : sn.getLast hne ≠ nh := fun hh => hnot (hh ▸ htl_mem)
  have hdecomp : sn.dropLast ++ [sn.getLast hne] = sn := List.dropLast_append_getLast hne
  have htl_not_dl : sn.getLast hne ∉ sn.dropLast := by
    have hnd2 := hnd
    rw [← hdecomp] at hnd2
    rcases List.nodup_append.mp hnd2 with ⟨_, _, hdisj⟩
    intro hmem
    exact hdisj hmem (List.mem_singleton.mpr rfl)
  rw [hdl]
  by_cases hpt : p = sn.getLast hne
  · subst hpt
    rw [getCell_setCell_self _ _ EMPTY ((InDims_setCell b nh SNAKE _).mpr htl)]
    constructor
    · intro hcontra
      exact absurd hcontra (by simp [EMPTY, SNAKE])
    · intro hcontra
      rcases List.mem_cons.mp hcontra with hh | hh
      · exact absurd hh htl_ne_nh
      · exact absurd hh htl_not_dl
  · rw [getCell_setCell_ne _ _ _ EMPTY hpt]
    by_cases hpn : p = nh
    · subst hpn
      rw [getCell_setCell_self b p SNAKE hnh]
      simp
    · rw [getCell_setCell_ne b nh p SNAKE hpn, hsync p]
      have hmem_iff : p ∈ sn ↔ p ∈ sn.dropLast ∨ p = sn.getLast hne := by
        constructor
        · intro hq
          rw [← hdecomp] at hq
          rcases List.mem_append.mp hq with hh | hh
          · exact Or.inl hh
          · exact Or.inr (List.mem_singleton.mp hh)
        · intro hq
          rcases hq with hh | hh
          · exact List.mem_of_mem_dropLast hh
          · exact hh ▸ htl_mem
      rw [hmem_iff, List.mem_cons]
      simp [hpn, hpt]

/-! ### Bridges between the Bool checks and their Prop forms -/

theorem isInBounds_iff (s : SnakeGameLogic) (p : Pos) : isInBounds s p = true ↔ inB s p := by
  unfold isInBounds inB
  exact decide_eq_true_iff

theorem checkSelfCollision_iff (s : SnakeGameLogic) (p : Pos) :
    checkSelfCollision s p = true ↔ p ∈ s.snake.drop 1 := by
  unfold checkSelfCollision
  exact decide_eq_true_iff

/-! ### Invariant preservation by each operation -/

theorem engineInv_applyDirection (P : InitParams) (s : SnakeGameLogic) (h : EngineInv P s) :
    EngineInv P (applyDirection s) := by
  have hd := applyDirection_dir s
  have hdm : (applyDirection s).currentDirection ≠ Direction.NONE := by
    rcases hd.2 with h1 | h1
    · rw [hd.1, h1, h.dir_eq]
      exact h.dir_ne
    · rw [hd.1, h1.1]
      exact h1.2
  have hinb : ∀ p : Pos, inB (applyDirection s) p ↔ inB s p := by
    intro p
    unfold inB
    rw [applyDirection_rows, applyDirection_cols]
  refine ⟨?_, ?_, ?_, ?_, ?_, ?_, ?_, ?_, ?_, ?_, ?_, ?_, ?_, ?_, hdm, hd.1.symm, ?_, ?_⟩
  · rw [applyDirection_rows, h.rows_eq]
  · rw [applyDirection_cols, h.cols_eq]
  · rw [applyDirection_ppf, h.ppf_eq]
  · rw [applyDirection_startLen, h.start_eq]
  · rw [applyDirection_board, applyDirection_rows, h.brd_len]
  · rw [applyDirection_board, applyDirection_cols]
    exact h.brd_row
  · rw [applyDirection_snake]
    exact h.sn_ne
  · rw [applyDirection_snake]
    exact h.sn_nd
  · intro p hp
    rw [applyDirection_snake] at hp
    rw [hinb]
    exact h.sn_inb p hp
  · intro p
    rw [applyDirection_board, applyDirection_snake]
    exact h.cell_sn p
  · intro p
    rw [applyDirection_board, applyDirection_foodExists, applyDirection_food]
    exact h.cell_fd p
  · intro hfe
    rw [applyDirection_foodExists] at hfe
    rw [applyDirection_food, hinb]
    exact h.fd_inb hfe
  · intro p
    rw [applyDirection_board]
    exact h.no_wall p
  · rw [applyDirection_growth, h.gr0]
  · rw [applyDirection_snake]
    exact h.len_ge
  · rw [applyDirection_score, applyDirection_snake, h.score_eq]

theorem brd_row_setCell (b : List (List Nat)) (q : Pos) (v : Nat) (C : Nat)
    (h : ∀ row ∈ b, row.length = C) : ∀ row ∈ setCell b q v, row.length = C := by
  unfold setCell
  split
  · intro row hrow
    by_cases hl : q.1.toNat < b.length
    · rcases List.mem_or_eq_of_mem_set hrow with hmem | heq
      · exact h row hmem
      · rw [heq, List.length_set]
        exact h _ (list_getD_mem b q.1.toNat [] hl)
    · rw [List.set_eq_of_length_le (Nat.le_of_not_lt hl)] at hrow
      exact h row hrow
  · exact h

theorem brd_row_foldl (v : Nat) (segs : List Pos) :
    ∀ (b : List (List Nat)) (C : Nat), (∀ row ∈ b, row.length = C) →
      ∀ row ∈ segs.foldl (fun bb q => setCell bb q v) b, row.length = C := by
  induction segs with
  | nil => intro b C h; exact h
  | cons a rest ih =>
    intro b C h
    rw [List.foldl_cons]
    exact ih (setCell b a v) C (brd_row_setCell b a v C h)

theorem engineInv_placeRandomFood (P : InitParams) (choice : Nat) (s : SnakeGameLogic)
    (h : EngineInv P s) (hfe : s.foodExists = false) :
    EngineInv P (placeRandomFood choice s) := by
  by_cases hec : emptyCellsList s.board s.rows s.cols = []
  · rw [placeRandomFood_none choice s hec]
    exact engineInv_congr P s _ h rfl rfl rfl rfl rfl rfl rfl (by simp [hfe]) rfl rfl rfl rfl
  · obtain ⟨hfe2, hfmem, hbrd⟩ := placeRandomFood_some choice s hec
    rw [mem_emptyCellsList] at hfmem
    obtain ⟨hf1, hf2, hf3, hf4, hfempty⟩ := hfmem
    have hfinB : inB s (placeRandomFood choice s).food := ⟨hf1, hf2, hf3, hf4⟩
    have hfdims : InDims s.board (placeRandomFood choice s).food :=
      inDims_of_inB P s h _ hfinB
    have hfnotsn : (placeRandomFood choice s).food ∉ s.snake := by
      intro hm
      have hsn := (h.cell_sn _).mpr hm
      rw [hfempty] at hsn
      exact absurd hsn (by simp [EMPTY, SNAKE])
    have hinb : ∀ p : Pos, inB (placeRandomFood choice s) p ↔ inB s p := by
      intro p
      unfold inB
      rw [placeRandomFood_rows, placeRandomFood_cols]
    refine ⟨?_, ?_, ?_, ?_, ?_, ?_, ?_, ?_, ?_, ?_, ?_, ?_, ?_, ?_, ?_, ?_, ?_, ?_⟩
    · rw [placeRandomFood_rows, h.rows_eq]
    · rw [placeRandomFood_cols, h.cols_eq]
    · rw [placeRandomFood_ppf, h.ppf_eq]
    · rw [placeRandomFood_startLen, h.start_eq]
    · rw [hbrd, length_setCell, placeRandomFood_rows, h.brd_len]
    · rw [hbrd, placeRandomFood_cols]
      exact brd_row_setCell _ _ _ _ h.brd_row
    · rw [placeRandomFood_snake]
      exact h.sn_ne
    · rw [placeRandomFood_snake]
      exact h.sn_nd
    · intro p hp
      rw [placeRandomFood_snake] at hp
      rw [hinb]
      exact h.sn_inb p hp
    · intro p
      rw [hbrd, placeRandomFood_snake]
      by_cases hpf : p = (placeRandomFood choice s).food
      · subst hpf
        rw [getCell_setCell_self _ _ FOOD hfdims]
        constructor
        · intro hcontra
          exact absurd hcontra (by simp [FOOD, SNAKE])
        · intro hcontra
          exact absurd hcontra hfnotsn
      · rw [getCell_setCell_ne _ _ _ FOOD hpf]
        exact h.cell_sn p
    · intro p
      rw [hbrd, hfe2]
      by_cases hpf : p = (placeRandomFood choice s).food
      · subst hpf
        rw [getCell_setCell_self _ _ FOOD hfdims]
        simp
      · rw [getCell_setCell_ne _ _ _ FOOD hpf]
        rw [h.cell_fd p, hfe]
        simp [hpf]
    · intro _
      rw [hinb]
      exact hfinB
    · intro p
      rw [hbrd]
      rcases getCell_setCell_cases s.board (placeRandomFood choice s).food p FOOD with hh | hh
      · rw [hh]
        simp [FOOD, WALL]
      · rw [hh]
        exact h.no_wall p
    · rw [placeRandomFood_growth, h.gr0]
    · rw [placeRandomFood_curDir]
      exact h.dir_ne
    · rw [placeRandomFood_nextDir, placeRandomFood_curDir, h.dir_eq]
    · rw [placeRandomFood_snake]
      exact h.len_ge
    · rw [placeRandomFood_score, placeRandomFood_snake, h.score_eq]

theorem placeRandomFood_false_elim (choice : Nat) (s : SnakeGameLogic)
    (h : (placeRandomFood choice s).foodExists = false) :
    emptyCellsList s.board s.rows s.cols = [] ∧
      placeRandomFood choice s = { s with foodExists := false } := by
  by_cases hec : emptyCellsList s.board s.rows s.cols = []
  · exact ⟨hec, placeRandomFood_none choice s hec⟩
  · obtain ⟨hfe2, _, _⟩ := placeRandomFood_some choice s hec
    rw [hfe2] at h
    exact absurd h (by simp)

theorem inv_publish_flag (P : InitParams) (t : SnakeGameLogic) (g : Bool) (h : EngineInv P t) :
    Inv P (publishState { t with gameOver := g }) := by
  apply inv_publish
  exact engineInv_congr P t _ h rfl rfl rfl rfl rfl rfl rfl rfl rfl rfl rfl rfl

/-- Full behavior of the post-check part of a tick (steps 5-9): the
invariant is re-established and published; eating adds exactly
`pointsPerFood` to the score and one segment to the snake, a non-eating
move changes neither; food ends up absent only when the board has no
empty cell left. -/
theorem tickMove_spec (P : InitParams) (choice : Nat) (s3 : SnakeGameLogic) (nh : Pos)
    (h : EngineInv P s3) (hb : inB s3 nh) (hnot : nh ∉ s3.snake) :
    Inv P (tickMove choice s3 nh).2 ∧
    (tickMove choice s3 nh).2.currentDirection = s3.currentDirection ∧
    (if s3.foodExists = true ∧ nh = s3.food then
      (tickMove choice s3 nh).2.score = s3.score + s3.pointsPerFood ∧
      (tickMove choice s3 nh).2.snake.length = s3.snake.length + 1
    else
      (tickMove choice s3 nh).2.score = s3.score ∧
      (tickMove choice s3 nh).2.snake.length = s3.snake.length) ∧
    ((tickMove choice s3 nh).2.foodExists = false →
      emptyCellsList (tickMove choice s3 nh).2.board (tickMove choice s3 nh).2.rows
        (tickMove choice s3 nh).2.cols = []) := by
  have hnhdims : InDims s3.board nh := inDims_of_inB P s3 h nh hb
  unfold tickMove
  dsimp only
  by_cases he : s3.foodExists = true ∧ nh = s3.food
  · -- the eating tick
    rw [if_pos he]
    set s4 : SnakeGameLogic := { s3 with
      snakeGrowth := s3.snakeGrowth + 1, score := s3.score + s3.pointsPerFood,
      foodExists := false } with hs4
    have hgrow : s4.snakeGrowth > 0 := by
      show s3.snakeGrowth + 1 > 0
      rw [h.gr0]
      omega
    obtain ⟨hm1, hm2, hm3⟩ := moveSnake_grow s4 nh hgrow
    set s5 := moveSnake s4 nh with hs5
    have hsn5 : s5.snake = nh :: s3.snake := hm1
    have hbd5 : s5.board = setCell s3.board nh SNAKE := hm2
    have hgr5 : s5.snakeGrowth = 0 := by
      rw [hm3]
      show s3.snakeGrowth + 1 - 1 = 0
      rw [h.gr0]
      omega
    have hfe5 : s5.foodExists = false := by
      rw [hs5, moveSnake_foodExists]
    rw [if_pos hfe5]
    have hE5 : EngineInv P s5 := by
      refine ⟨?_, ?_, ?_, ?_, ?_, ?_, ?_, ?_, ?_, ?_, ?_, ?_, ?_, ?_, ?_, ?_, ?_, ?_⟩
      · rw [hs5, moveSnake_rows]
        exact h.rows_eq
      · rw [hs5, moveSnake_cols]
        exact h.cols_eq
      · rw [hs5, moveSnake_ppf]
        exact h.ppf_eq
      · rw [hs5, moveSnake_startLen]
        exact h.start_eq
      · rw [hbd5, length_setCell, hs5, moveSnake_rows]
        exact h.brd_len
      · rw [hbd5, hs5, moveSnake_cols]
        exact brd_row_setCell _ _ _ _ h.brd_row
      · rw [hsn5]
        exact List.cons_ne_nil nh s3.snake
      · rw [hsn5]
        exact List.nodup_cons.mpr ⟨hnot, h.sn_nd⟩
      · intro p hp
        rw [hsn5] at hp
        have hiff : inB s5 p ↔ inB s3 p := by
          unfold inB
          rw [hs5, moveSnake_rows, moveSnake_cols]
        rcases List.mem_cons.mp hp with hh | hh
        · rw [hiff, hh]
          exact hb
        · rw [hiff]
          exact h.sn_inb p hh
      · intro p
        rw [hbd5, hsn5]
        exact sync_push s3.board s3.snake nh h.cell_sn hnhdims p
      · intro p
        rw [hbd5, hfe5]
        constructor
        · intro hcontra
          by_cases hpn : p = nh
          · subst hpn
            rw [getCell_setCell_self _ _ SNAKE hnhdims] at hcontra
            exact absurd hcontra (by simp [SNAKE, FOOD])
          · rw [getCell_setCell_ne _ _ _ SNAKE hpn] at hcontra
            obtain ⟨_, hpf⟩ := (h.cell_fd p).mp hcontra
            exact (hpn (by rw [hpf, ← he.2])).elim
        · intro hcontra
          exact absurd hcontra.1 (by simp)
      · intro hcontra
        rw [hfe5] at hcontra
        exact absurd hcontra (by simp)
      · intro p
        rw [hbd5]
        rcases getCell_setCell_cases s3.board nh p SNAKE with hh | hh
        · rw [hh]
          simp [SNAKE, WALL]
        · rw [hh]
          exact h.no_wall p
      · exact hgr5
      · rw [hs5, moveSnake_curDir]
        exact h.dir_ne
      · rw [hs5, moveSnake_nextDir, moveSnake_curDir]
        exact h.dir_eq
      · rw [hsn5]
        have := h.len_ge
        simp only [List.length_cons]
        push_cast
        omega
      · rw [hs5, moveSnake_score, hsn5]
        show s3.score + s3.pointsPerFood = P.ppf * ((nh :: s3.snake).length - P.len)
        rw [h.score_eq, h.ppf_eq, List.length_cons]
        push_cast
        ring
    have hE6 : EngineInv P (placeRandomFood choice s5) :=
      engineInv_placeRandomFood P choice s5 hE5 hfe5
    set s6 := placeRandomFood choice s5 with hs6
    have hsc6 : s6.score = s3.score + s3.pointsPerFood := by
      rw [hs6, placeRandomFood_score, hs5, moveSnake_score]
    have hln6 : s6.snake.length = s3.snake.length + 1 := by
      rw [hs6, placeRandomFood_snake, hsn5, List.length_cons]
    have hcd6 : s6.currentDirection = s3.currentDirection := by
      rw [hs6, placeRandomFood_curDir, hs5, moveSnake_curDir]
    split
    · rename_i hstale
      refine ⟨inv_publish_flag P s6 true hE6, ?_, ⟨?_, ?_⟩, ?_⟩
      · simp [hcd6]
      · simp [hsc6]
      · simp [hln6]
      · intro _
        obtain ⟨hec, heq⟩ := placeRandomFood_false_elim choice s5 (by
          rw [← hs6]
          exact hstale.1)
        have hbq : (publishState { s6 with gameOver := true }).board = s5.board := by
          rw [publishState_board]
          show s6.board = s5.board
          rw [hs6, heq]
        have hrq : (publishState { s6 with gameOver := true }).rows = s5.rows := by
          rw [publishState_rows]
          show s6.rows = s5.rows
          rw [hs6, heq]
        have hcq : (publishState { s6 with gameOver := true }).cols = s5.cols := by
          rw [publishState_cols]
          show s6.cols = s5.cols
          rw [hs6, heq]
        rw [hbq, hrq, hcq]
        exact hec
    · rename_i hstale
      refine ⟨inv_publish P s6 hE6, ?_, ⟨?_, ?_⟩, ?_⟩
      · simp [hcd6]
      · simp [hsc6]
      · simp [hln6]
      · intro hff
        rw [publishState_foodExists] at hff
        rw [publishState_board, publishState_rows, publishState_cols]
        obtain ⟨hec, heq⟩ := placeRandomFood_false_elim choice s5 (by rw [← hs6]; exact hff)
        have hbq : s6.board = s5.board := by rw [hs6, heq]
        have hrq : s6.rows = s5.rows := by rw [hs6, heq]
        have hcq : s6.cols = s5.cols := by rw [hs6, heq]
        rw [hbq, hrq, hcq]
        exact hec
  · -- the non-eating tick
    rw [if_neg he]
    have hnogrow : ¬ s3.snakeGrowth > 0 := by
      rw [h.gr0]
      omega
    obtain ⟨hm1, hm2, hm3⟩ := moveSnake_pop s3 nh hnogrow
    set s5 := moveSnake s3 nh with hs5
    have htail : (nh :: s3.snake).getLastD (0, 0) = s3.snake.getLast h.sn_ne := by
      rw [List.getLastD_cons, List.getLastD_eq_getLast?, List.getLast?_eq_getLast _ h.sn_ne]
      rfl
    have hsn5 : s5.snake = (nh :: s3.snake).dropLast := hm1
    have hbd5 : s5.board =
        setCell (setCell s3.board nh SNAKE) (s3.snake.getLast h.sn_ne) EMPTY := by
      rw [hm2, htail]
    have hgr5 : s5.snakeGrowth = 0 := by
      rw [hm3, h.gr0]
    have htl_mem : s3.snake.getLast h.sn_ne ∈ s3.snake := List.getLast_mem h.sn_ne
    have htldims : InDims s3.board (s3.snake.getLast h.sn_ne) :=
      inDims_of_inB P s3 h _ (h.sn_inb _ htl_mem)
    have htl_ne_nh : s3.snake.getLast h.sn_ne ≠ nh := fun hh => hnot (hh ▸ htl_mem)
    have hdl : (nh :: s3.snake).dropLast = nh :: s3.snake.dropLast :=
      List.dropLast_cons_of_ne_nil h.sn_ne
    have hfood_notin : s3.foodExists = true → s3.food ∉ s3.snake := by
      intro hfe3 hmem
      have hsn := (h.cell_sn s3.food).mpr hmem
      have hfd := (h.cell_fd s3.food).mpr ⟨hfe3, rfl⟩
      rw [hsn] at hfd
      exact absurd hfd (by simp [SNAKE, FOOD])
    have hlen5 : s5.snake.length = s3.snake.length := by
      rw [hsn5, List.length_dropLast, List.length_cons]
      omega
    have hE5 : EngineInv P s5 := by
      refine ⟨?_, ?_, ?_, ?_, ?_, ?_, ?_, ?_, ?_, ?_, ?_, ?_, ?_, ?_, ?_, ?_, ?_, ?_⟩
      · rw [hs5, moveSnake_rows]
        exact h.rows_eq
      · rw [hs5, moveSnake_cols]
        exact h.cols_eq
      · rw [hs5, moveSnake_ppf]
        exact h.ppf_eq
      · rw [hs5, moveSnake_startLen]
        exact h.start_eq
      · rw [hbd5, length_setCell, length_setCell, hs5, moveSnake_rows]
        exact h.brd_len
      · rw [hbd5, hs5, moveSnake_cols]
        exact brd_row_setCell _ _ _ _ (brd_row_setCell _ _ _ _ h.brd_row)
      · rw [hsn5, hdl]
        exact List.cons_ne_nil nh s3.snake.dropLast
      · rw [hsn5, hdl]
        refine List.nodup_cons.mpr ⟨?_, h.sn_nd.sublist (List.dropLast_sublist s3.snake)⟩
        intro hmem
        exact hnot (List.mem_of_mem_dropLast hmem)
      · intro p hp
        rw [hsn5, hdl] at hp
        have hiff : inB s5 p ↔ inB s3 p := by
          unfold inB
          rw [hs5, moveSnake_rows, moveSnake_cols]
        rcases List.mem_cons.mp hp with hh | hh
        · rw [hiff, hh]
          exact hb
        · rw [hiff]
          exact h.sn_inb p (List.mem_of_mem_dropLast hh)
      · intro p
        rw [hbd5, hsn5]
        exact sync_pop s3.board s3.snake nh h.cell_sn h.sn_nd h.sn_ne hnhdims hnot htldims p
      · intro p
        rw [hbd5, hs5, moveSnake_foodExists, moveSnake_food]
        by_cases hpt : p = s3.snake.getLast h.sn_ne
        · rw [hpt, getCell_setCell_self _ _ EMPTY ((InDims_setCell _ _ _ _).mpr htldims)]
          constructor
          · intro hcontra
            exact absurd hcontra (by simp [EMPTY, FOOD])
          · rintro ⟨hfe3, hpf⟩
            exact absurd (hpf ▸ htl_mem) (hfood_notin hfe3)
        · rw [getCell_setCell_ne _ _ _ EMPTY hpt]
          by_cases hpn : p = nh
          · rw [hpn, getCell_setCell_self _ _ SNAKE hnhdims]
            constructor
            · intro hcontra
              exact absurd hcontra (by simp [SNAKE, FOOD])
            · rintro ⟨hfe3, hpf⟩
              exact (he ⟨hfe3, hpf⟩).elim
          · rw [getCell_setCell_ne _ _ _ SNAKE hpn]
            exact h.cell_fd p
      · intro hfe3
        rw [hs5, moveSnake_foodExists] at hfe3
        have hiff : inB s5 s5.food ↔ inB s3 s3.food := by
          unfold inB
          rw [hs5, moveSnake_rows, moveSnake_cols, moveSnake_food]
        rw [hiff]
        exact h.fd_inb hfe3
      · intro p
        rw [hbd5]
        rcases getCell_setCell_cases (setCell s3.board nh SNAKE)
          (s3.snake.getLast h.sn_ne) p EMPTY with hh | hh
        · rw [hh]
          simp [EMPTY, WALL]
        · rw [hh]
          rcases getCell_setCell_cases s3.board nh p SNAKE with hh2 | hh2
          · rw [hh2]
            simp [SNAKE, WALL]
          · rw [hh2]
            exact h.no_wall p
      · exact hgr5
      · rw [hs5, moveSnake_curDir]
        exact h.dir_ne
      · rw [hs5, moveSnake_nextDir, moveSnake_curDir]
        exact h.dir_eq
      · rw [hlen5]
        exact h.len_ge
      · rw [hs5, moveSnake_score, hlen5]
        exact h.score_eq
    have hsc5 : s5.score = s3.score := by
      rw [hs5, moveSnake_score]
    have hcd5 : s5.currentDirection = s3.currentDirection := by
      rw [hs5, moveSnake_curDir]
    have hfe5 : s5.foodExists = s3.foodExists := by
      rw [hs5, moveSnake_foodExists]
    by_cases hf3 : s5.foodExists = false
    · rw [if_pos hf3]
      have hE6 : EngineInv P (placeRandomFood choice s5) :=
        engineInv_placeRandomFood P choice s5 hE5 hf3
      set s6 := placeRandomFood choice s5 with hs6
      have hsc6 : s6.score = s3.score := by
        rw [hs6, placeRandomFood_score, hsc5]
      have hln6 : s6.snake.length = s3.snake.length := by
        rw [hs6, placeRandomFood_snake, hlen5]
      have hcd6 : s6.currentDirection = s3.currentDirection := by
        rw [hs6, placeRandomFood_curDir, hcd5]
      split
      · rename_i hstale
        refine ⟨inv_publish_flag P s6 true hE6, ?_, ⟨?_, ?_⟩, ?_⟩
        · simp [hcd6]
        · simp [hsc6]
        · simp [hln6]
        · intro _
          obtain ⟨hec, heq⟩ := placeRandomFood_false_elim choice s5 (by
            rw [← hs6]
            exact hstale.1)
          have hbq : (publishState { s6 with gameOver := true }).board = s5.board := by
            rw [publishState_board]
            show s6.board = s5.board
            rw [hs6, heq]
          have hrq : (publishState { s6 with gameOver := true }).rows = s5.rows := by
            rw [publishState_rows]
            show s6.rows = s5.rows
            rw [hs6, heq]
          have hcq : (publishState { s6 with gameOver := true }).cols = s5.cols := by
            rw [publishState_cols]
            show s6.cols = s5.cols
            rw [hs6, heq]
          rw [hbq, hrq, hcq]
          exact hec
      · rename_i hstale
        refine ⟨inv_publish P s6 hE6, ?_, ⟨?_, ?_⟩, ?_⟩
        · simp [hcd6]
        · simp [hsc6]
        · simp [hln6]
        · intro hff
          rw [publishState_foodExists] at hff
          rw [publishState_board, publishState_rows, publishState_cols]
          obtain ⟨hec, heq⟩ := placeRandomFood_false_elim choice s5 (by rw [← hs6]; exact hff)
          have hbq : s6.board = s5.board := by rw [hs6, heq]
          have hrq : s6.rows = s5.rows := by rw [hs6, heq]
          have hcq : s6.cols = s5.cols := by rw [hs6, heq]
          rw [hbq, hrq, hcq]
          exact hec
    · rw [if_neg hf3]
      split
      · rename_i hstale
        exact absurd hstale.1 hf3
      · refine ⟨inv_publish P s5 hE5, ?_, ⟨?_, ?_⟩, ?_⟩
        · simp [hcd5]
        · simp [hsc5]
        · simp [hlen5]
        · intro hff
          rw [publishState_foodExists] at hff
          exact absurd hff hf3

theorem inv_update (P : InitParams) (choice : Nat) (s : SnakeGameLogic) (h : Inv P s) :
    Inv P (update choice s).2 := by
  by_cases hg : s.gameOver = true
  · rw [update, if_pos hg]
    exact h
  · rw [update, if_neg hg]
    dsimp only
    have hE3 : EngineInv P (applyDirection s) := engineInv_applyDirection P s h.1
    by_cases hib : isInBounds (applyDirection s) (getNextHeadPosition (applyDirection s)) = false
    · rw [if_pos hib]
      exact inv_publish_flag P _ true hE3
    · rw [if_neg hib]
      by_cases hw : getCell (applyDirection s).board (getNextHeadPosition (applyDirection s)) =
          WALL
      · rw [if_pos hw]
        exact inv_publish_flag P _ true hE3
      · rw [if_neg hw]
        by_cases hcc : checkSelfCollision (applyDirection s)
            (getNextHeadPosition (applyDirection s)) = true
        · rw [if_pos hcc]
          exact inv_publish_flag P _ true hE3
        · rw [if_neg hcc]
          have hbB : inB (applyDirection s) (getNextHeadPosition (applyDirection s)) := by
            rcases Bool.eq_false_or_eq_true
              (isInBounds (applyDirection s) (getNextHeadPosition (applyDirection s))) with
                hh | hh
            · exact (isInBounds_iff _ _).mp hh
            · exact absurd hh hib

          have hnot : getNextHeadPosition (applyDirection s) ∉ (applyDirection s).snake := by
            obtain ⟨hd, tl, hsnake⟩ := List.exists_cons_of_ne_nil hE3.sn_ne
            have hhead : getNextHeadPosition (applyDirection s) =
                stepDir (applyDirection s).currentDirection hd := by
              unfold getNextHeadPosition
              rw [hsnake]
              rfl
            have hne_hd : getNextHeadPosition (applyDirection s) ≠ hd := by
              rw [hhead]
              exact stepDir_ne _ hE3.dir_ne hd
            have hnotdrop : getNextHeadPosition (applyDirection s) ∉
                (applyDirection s).snake.drop 1 := by
              intro hmem
              exact hcc ((checkSelfCollision_iff _ _).mpr hmem)
            rw [hsnake] at hnotdrop ⊢
            intro hmem
            rcases List.mem_cons.mp hmem with hh | hh
            · exact hne_hd hh
            · exact hnotdrop (by simpa using hh)
          exact (tickMove_spec P choice _ _ hE3 hbB hnot).1

theorem segPos_inj (rows cols : Int) (d : Direction) (hd : d ≠ Direction.NONE) :
    Function.Injective (segPos rows cols d) := by
  intro i j hij
  cases d with
  | UP =>
    have := congrArg Prod.fst hij
    simp only [segPos] at this
    omega
  | DOWN =>
    have := congrArg Prod.fst hij
    simp only [segPos] at this
    omega
  | LEFT =>
    have := congrArg Prod.snd hij
    simp only [segPos] at this
    omega
  | RIGHT =>
    have := congrArg Prod.snd hij
    simp only [segPos] at this
    omega
  | NONE => exact absurd rfl hd

theorem inv_initializeBoard (P : InitParams) (choice : Nat) (s0 : SnakeGameLogic)
    (hV : ValidInit P) :
    Inv P (initializeBoard P.rows P.cols P.len P.ppf P.dir choice s0) := by
  obtain ⟨hrows, hcols, hlen, hdir, hfit⟩ := hV
  unfold initializeBoard
  dsimp only
  apply inv_publish
  apply engineInv_placeRandomFood _ _ _ _ rfl
  set segs := (List.range P.len.toNat).map (segPos P.rows P.cols P.dir) with hsegs
  set board0 := List.replicate P.rows.toNat (List.replicate P.cols.toNat EMPTY) with hboard0
  have hsegs_bnd : ∀ p ∈ segs, 0 ≤ p.1 ∧ p.1 < P.rows ∧ 0 ≤ p.2 ∧ p.2 < P.cols := by
    intro p hp
    rw [hsegs] at hp
    obtain ⟨i, hi, rfl⟩ := List.mem_map.mp hp
    rw [List.mem_range] at hi
    obtain ⟨a1, a2, a3, a4⟩ := hfit i hi
    exact ⟨a1, a2, a3, a4⟩
  have hdims : ∀ p ∈ segs, InDims board0 p := by
    intro p hp
    obtain ⟨a1, a2, a3, a4⟩ := hsegs_bnd p hp
    refine ⟨a1, ?_, a3, ?_⟩
    · rw [hboard0, List.length_replicate]
      omega
    · rw [hboard0, list_getD_replicate, if_pos (show p.1.toNat < P.rows.toNat by omega),
        List.length_replicate]
      omega
  have hcell : ∀ p, getCell (segs.foldl (fun bb q => setCell bb q SNAKE) board0) p
      = if p ∈ segs then SNAKE else EMPTY := by
    intro p
    rw [getCell_foldl_setCell SNAKE segs board0 hdims p]
    split
    · rfl
    · rw [hboard0, getCell_replicate]
  have hnd : segs.Nodup := by
    rw [hsegs]
    exact (List.nodup_range _).map (segPos_inj P.rows P.cols P.dir hdir)
  have hlen_segs : segs.length = P.len.toNat := by
    rw [hsegs, List.length_map, List.length_range]
  have hne : segs ≠ [] := by
    intro hcontra
    rw [hcontra] at hlen_segs
    simp only [List.length_nil] at hlen_segs
    omega
  refine ⟨rfl, rfl, rfl, rfl, ?_, ?_, hne, hnd, ?_, ?_, ?_, ?_, ?_, rfl, hdir, rfl, ?_, ?_⟩
  · show (segs.foldl (fun bb q => setCell bb q SNAKE) board0).length = P.rows.toNat
    rw [length_foldl_setCell, hboard0, List.length_replicate]
  · show ∀ row ∈ segs.foldl (fun bb q => setCell bb q SNAKE) board0,
      row.length = P.cols.toNat
    apply brd_row_foldl
    intro row hrow
    rw [hboard0] at hrow
    rw [List.eq_of_mem_replicate hrow, List.length_replicate]
  · intro p hp
    exact hsegs_bnd p hp
  · intro p
    rw [hcell p]
    split
    · rename_i hmem
      exact iff_of_true rfl hmem
    · rename_i hmem
      exact iff_of_false (by simp [EMPTY, SNAKE]) hmem
  · intro p
    rw [hcell p]
    constructor
    · intro hcontra
      refine absurd hcontra ?_
      split <;> simp [SNAKE, FOOD, EMPTY]
    · rintro ⟨hcontra, _⟩
      exact absurd hcontra (by simp)
  · intro hcontra
    exact absurd hcontra (by simp)
  · intro p
    rw [hcell p]
    split <;> simp [SNAKE, EMPTY, WALL]
  · show P.len ≤ ((segs.length : Nat) : Int)
    rw [hlen_segs]
    omega
  · show (0 : Int) = P.ppf * ((segs.length : Nat) - P.len)
    rw [hlen_segs]
    have hcast : ((P.len.toNat : Nat) : Int) = P.len := by omega
    rw [hcast, sub_self, mul_zero]

theorem inv_setDirection (P : InitParams) (d : Direction) (s : SnakeGameLogic) (h : Inv P s) :
    Inv P (setDirection d s) := by
  constructor
  · exact engineInv_congr P s _ h.1 rfl rfl rfl rfl rfl rfl rfl rfl rfl rfl rfl rfl
  · exact h.2

theorem inv_reachable (P : InitParams) (s : SnakeGameLogic) (hV : ValidInit P)
    (h : Reachable P s) : Inv P s := by
  induction h with
  | init choice s0 => exact inv_initializeBoard P choice s0 hV
  | step choice s hs ih => exact inv_update P choice s ih
  | dirReq d hd s hs ih => exact inv_setDirection P d s ih

/-! ### Direction bookkeeping of a tick -/

theorem tickMove_curDir (choice : Nat) (s3 : SnakeGameLogic) (nh : Pos) :
    (tickMove choice s3 nh).2.currentDirection = s3.currentDirection := by
  unfold tickMove
  dsimp only
  by_cases he : s3.foodExists = true ∧ nh = s3.food
  · rw [if_pos he]
    split <;> split <;> simp
  · rw [if_neg he]
    split <;> split <;> simp

theorem update_curDir (choice : Nat) (s : SnakeGameLogic) (hg : s.gameOver = false) :
    (update choice s).2.currentDirection = (applyDirection s).currentDirection := by
  rw [update, if_neg (by simp [hg])]
  dsimp only
  by_cases h1 : isInBounds (applyDirection s) (getNextHeadPosition (applyDirection s)) = false
  · rw [if_pos h1]
    simp
  · rw [if_neg h1]
    by_cases h2 : getCell (applyDirection s).board (getNextHeadPosition (applyDirection s)) = WALL
    · rw [if_pos h2]
      simp
    · rw [if_neg h2]
      by_cases h3 : checkSelfCollision (applyDirection s)
          (getNextHeadPosition (applyDirection s)) = true
      · rw [if_pos h3]
        simp
      · rw [if_neg h3]
        exact tickMove_curDir choice (applyDirection s) (getNextHeadPosition (applyDirection s))

theorem applyDirection_rejects (s : SnakeGameLogic)
    (hcond : ¬(s.atomicDirection ≠ Direction.NONE ∧
      isValidDirectionChange s.currentDirection s.atomicDirection = true)) :
    applyDirection s = { s with
      atomicDirection := Direction.NONE,
      currentDirection := s.nextDirection } := by
  unfold applyDirection
  dsimp only
  rw [if_neg hcond]

/-! ### Claim theorems -/

/-- Claim C7: once a tick has set gameOver = true, every subsequent
update() call returns false and performs no mutation at all: the entire
object (board, snake, score, food, direction, and both snapshot buffers,
so no new snapshot is published) is returned unchanged. -/
theorem claim_C7_gameOver_ticks_are_noops (choice : Nat) (s : SnakeGameLogic)
    (h : s.gameOver = true) : update choice s = (false, s) := by
  rw [update, if_pos h]

theorem claim_C7_witness :
    ({ SnakeGameLogic.construct with gameOver := true } : SnakeGameLogic).gameOver = true ∧
    update 0 { SnakeGameLogic.construct with gameOver := true } =
      (false, { SnakeGameLogic.construct with gameOver := true }) :=
  ⟨rfl, claim_C7_gameOver_ticks_are_noops 0 _ rfl⟩

/-- Claim C8: getCellType returns Wall for every coordinate outside the
current snapshot's bounds, and the snapshot board's cell value (totally
defined, so it never faults) for every in-bounds coordinate. -/
theorem claim_C8_cell_lookup_defaults_to_wall (s : SnakeGameLogic) (r c : Int) :
    (¬(0 ≤ r ∧ r < (currentSnapshot s).rows ∧ 0 ≤ c ∧ c < (currentSnapshot s).cols) →
      getCellType s r c = WALL) ∧
    ((0 ≤ r ∧ r < (currentSnapshot s).rows ∧ 0 ≤ c ∧ c < (currentSnapshot s).cols) →
      getCellType s r c = getCell (currentSnapshot s).board (r, c)) := by
  constructor
  · intro hout
    unfold getCellType
    rw [if_neg hout]
  · intro hin
    unfold getCellType
    rw [if_pos hin]
    unfold getCell
    rw [if_pos ⟨hin.1, hin.2.2.1⟩]

theorem claim_C8_witness :
    (¬((0 : Int) ≤ -1 ∧ (-1 : Int) < (currentSnapshot SnakeGameLogic.construct).rows ∧
        (0 : Int) ≤ 0 ∧ (0 : Int) < (currentSnapshot SnakeGameLogic.construct).cols) ∧
      getCellType SnakeGameLogic.construct (-1) 0 = WALL) :=
  ⟨by decide, (claim_C8_cell_lookup_defaults_to_wall SnakeGameLogic.construct (-1) 0).1
    (by decide)⟩

/-- Claim C6: a pending request that is the 180-degree opposite of the
current direction is discarded by the next tick: the tick behaves
exactly as if no request were pending, and the current direction after
the tick is unchanged (so the movement of that tick also used it). -/
theorem claim_C6_reversal_request_discarded (choice : Nat) (s : SnakeGameLogic)
    (hg : s.gameOver = false) (hnd : s.nextDirection = s.currentDirection)
    (hopp : s.atomicDirection = oppositeDir s.currentDirection)
    (hdir : s.currentDirection ≠ Direction.NONE) :
    update choice s = update choice (setDirection Direction.NONE s) ∧
    (update choice s).2.currentDirection = s.currentDirection := by
  have hval : isValidDirectionChange s.currentDirection (oppositeDir s.currentDirection) =
      false := by
    cases hh : s.currentDirection with
    | UP => rfl
    | DOWN => rfl
    | LEFT => rfl
    | RIGHT => rfl
    | NONE => exact absurd hh hdir
  have hcond : ¬(s.atomicDirection ≠ Direction.NONE ∧
      isValidDirectionChange s.currentDirection s.atomicDirection = true) := by
    rintro ⟨_, hv⟩
    rw [hopp, hval] at hv
    exact absurd hv (by simp)
  have happ : applyDirection s = applyDirection (setDirection Direction.NONE s) := by
    rw [applyDirection_rejects s hcond]
    rw [applyDirection_rejects (setDirection Direction.NONE s) (by
      rintro ⟨hne, _⟩
      exact hne rfl)]
    rfl
  have hcur : (applyDirection s).currentDirection = s.currentDirection := by
    rw [applyDirection_rejects s hcond]
    exact hnd
  constructor
  · rw [update, update, if_neg (by simp [hg]),
      if_neg (show ¬ (setDirection Direction.NONE s).gameOver = true by simp [hg, setDirection])]
    dsimp only
    rw [happ]
  · rw [update_curDir choice s hg, hcur]

theorem claim_C6_witness :
    ((setDirection Direction.LEFT
        (initializeBoard 5 5 1 10 Direction.RIGHT 0 SnakeGameLogic.construct)).gameOver
      = false ∧
    (setDirection Direction.LEFT
        (initializeBoard 5 5 1 10 Direction.RIGHT 0 SnakeGameLogic.construct)).nextDirection =
      (setDirection Direction.LEFT
        (initializeBoard 5 5 1 10 Direction.RIGHT 0 SnakeGameLogic.construct)).currentDirection ∧
    (setDirection Direction.LEFT
        (initializeBoard 5 5 1 10 Direction.RIGHT 0 SnakeGameLogic.construct)).atomicDirection =
      oppositeDir (setDirection Direction.LEFT
        (initializeBoard 5 5 1 10 Direction.RIGHT 0 SnakeGameLogic.construct)).currentDirection)
    ∧
    ((update 3 (setDirection Direction.LEFT
        (initializeBoard 5 5 1 10 Direction.RIGHT 0 SnakeGameLogic.construct))).2).currentDirection
      = (setDirection Direction.LEFT
        (initializeBoard 5 5 1 10 Direction.RIGHT 0 SnakeGameLogic.construct)).currentDirection :=
  ⟨⟨by decide, by decide, by decide⟩,
    (claim_C6_reversal_request_discarded 3 _ (by decide) (by decide) (by decide) (by decide)).2⟩

theorem nextHeadOf_eq (s : SnakeGameLogic) :
    nextHeadOf s = getNextHeadPosition (applyDirection s) := rfl

/-- Claim C3: on a live game the tick's terminal checks, in order
(a) next head out of bounds, (b) next head on a Wall cell, (c) next
head on any existing snake segment including the current tail (the
membership check runs before the tail is removed, so stepping onto the
tail-about-to-vacate is fatal), all lead to one identical outcome: the
tick sets gameOver = true, publishes a snapshot of the otherwise
unchanged state and returns false, with no snake movement and no score
change. -/
theorem claim_C3_terminal_checks_order (P : InitParams) (choice : Nat) (s : SnakeGameLogic)
    (hInv : Inv P s) (hg : s.gameOver = false)
    (hterm : ¬ inB s (nextHeadOf s) ∨ getCell s.board (nextHeadOf s) = WALL ∨
      nextHeadOf s ∈ s.snake) :
    update choice s = (false, publishState { applyDirection s with gameOver := true }) ∧
    (update choice s).1 = false ∧
    (update choice s).2.gameOver = true ∧
    (update choice s).2.snake = s.snake ∧
    (update choice s).2.score = s.score ∧
    currentSnapshot (update choice s).2 = mkSnapshot (update choice s).2 := by
  have hE3 : EngineInv P (applyDirection s) := engineInv_applyDirection P s hInv.1
  have heq : update choice s =
      (false, publishState { applyDirection s with gameOver := true }) := by
    rw [update, if_neg (by simp [hg])]
    dsimp only
    by_cases h1 : isInBounds (applyDirection s) (getNextHeadPosition (applyDirection s)) = false
    · rw [if_pos h1]
    · rw [if_neg h1]
      have hb : inB (applyDirection s) (getNextHeadPosition (applyDirection s)) := by
        rcases Bool.eq_false_or_eq_true
          (isInBounds (applyDirection s) (getNextHeadPosition (applyDirection s))) with hh | hh
        · exact (isInBounds_iff _ _).mp hh
        · exact absurd hh h1
      have hinBs : inB s (nextHeadOf s) := by
        rw [nextHeadOf_eq]
        unfold inB at hb ⊢
        rw [applyDirection_rows, applyDirection_cols] at hb
        exact hb
      by_cases h2 : getCell (applyDirection s).board
          (getNextHeadPosition (applyDirection s)) = WALL
      · rw [if_pos h2]
      · rw [if_neg h2]
        have hnw : ¬ getCell s.board (nextHeadOf s) = WALL := by
          rw [nextHeadOf_eq, ← applyDirection_board s]
          exact h2
        by_cases h3 : checkSelfCollision (applyDirection s)
            (getNextHeadPosition (applyDirection s)) = true
        · rw [if_pos h3]
        · rw [if_neg h3]
          have hmem : nextHeadOf s ∉ s.snake := by
            obtain ⟨hd, tl, hsnake⟩ := List.exists_cons_of_ne_nil hInv.1.sn_ne
            have hsnake3 : (applyDirection s).snake = hd :: tl := by
              rw [applyDirection_snake, hsnake]
            have hhead : getNextHeadPosition (applyDirection s) =
                stepDir (applyDirection s).currentDirection hd := by
              unfold getNextHeadPosition
              rw [hsnake3]
              rfl
            have hne_hd : getNextHeadPosition (applyDirection s) ≠ hd := by
              rw [hhead]
              exact stepDir_ne _ hE3.dir_ne hd
            have hnotdrop : getNextHeadPosition (applyDirection s) ∉
                (applyDirection s).snake.drop 1 := by
              intro hmem2
              exact h3 ((checkSelfCollision_iff _ _).mpr hmem2)
            rw [nextHeadOf_eq, hsnake]
            rw [hsnake3] at hnotdrop
            intro hmem2
            rcases List.mem_cons.mp hmem2 with hh | hh
            · exact hne_hd hh
            · exact hnotdrop (by simpa using hh)
          rcases hterm with ht | ht | ht
          · exact absurd hinBs ht
          · exact absurd ht hnw
          · exact absurd ht hmem
  refine ⟨heq, ?_, ?_, ?_, ?_, ?_⟩
  · rw [heq]
  · rw [heq]
    simp
  · rw [heq]
    simp
  · rw [heq]
    simp
  · rw [heq]
    dsimp only
    rw [currentSnapshot_publishState, mkSnapshot_publishState]

/-- Claim C2: in every reachable state under a valid initialization,
the published snapshot's board marks exactly the snake's coordinates as
Snake cells, at most one cell holds Food, and the dimensions (both the
snapshot's and the engine's, field and physical board size) are those
fixed at initialization. -/
theorem claim_C2_board_snake_lockstep (P : InitParams) (s : SnakeGameLogic)
    (hV : ValidInit P) (hR : Reachable P s) :
    (∀ p : Pos, getCell (currentSnapshot s).board p = SNAKE ↔ p ∈ (currentSnapshot s).snake) ∧
    (∀ p q : Pos, getCell (currentSnapshot s).board p = FOOD →
      getCell (currentSnapshot s).board q = FOOD → p = q) ∧
    (currentSnapshot s).rows = P.rows ∧ (currentSnapshot s).cols = P.cols ∧
    (currentSnapshot s).board.length = P.rows.toNat ∧
    s.rows = P.rows ∧ s.cols = P.cols := by
  obtain ⟨hE, hsnap⟩ := inv_reachable P s hV hR
  rw [hsnap]
  refine ⟨?_, ?_, ?_, ?_, ?_, hE.rows_eq, hE.cols_eq⟩
  · intro p
    exact hE.cell_sn p
  · intro p q hp hq
    obtain ⟨_, hp2⟩ := (hE.cell_fd p).mp hp
    obtain ⟨_, hq2⟩ := (hE.cell_fd q).mp hq
    rw [hp2, hq2]
  · exact hE.rows_eq
  · exact hE.cols_eq
  · show s.board.length = P.rows.toNat
    rw [hE.brd_len, hE.rows_eq]

/-- Claim C10: in every reachable state under a valid initialization,
the growth-pending counter is back to 0, the published score is
pointsPerFood times the number of foods eaten (the snake length minus
the starting length), the length never drops below the starting length,
and with positive pointsPerFood the published length equals
startingLength + score / pointsPerFood. -/
theorem claim_C10_score_length_coupling (P : InitParams) (s : SnakeGameLogic)
    (hV : ValidInit P) (hR : Reachable P s) :
    s.snakeGrowth = 0 ∧
    (currentSnapshot s).score = P.ppf * ((currentSnapshot s).snakeLength - P.len) ∧
    P.len ≤ (currentSnapshot s).snakeLength ∧
    (0 < P.ppf → (currentSnapshot s).snakeLength = P.len + (currentSnapshot s).score / P.ppf) := by
  obtain ⟨hE, hsnap⟩ := inv_reachable P s hV hR
  rw [hsnap]
  refine ⟨hE.gr0, ?_, ?_, ?_⟩
  · exact hE.score_eq
  · exact hE.len_ge
  · intro hppf
    show (s.snake.length : Int) = P.len + s.score / P.ppf
    rw [hE.score_eq, Int.mul_ediv_cancel_left _ (by omega : P.ppf ≠ 0)]
    omega

theorem claim_C3_witness :
    ValidInit ⟨1, 1, 1, 10, Direction.RIGHT⟩ ∧
    (initializeBoard 1 1 1 10 Direction.RIGHT 0 SnakeGameLogic.construct).gameOver = false ∧
    (¬ inB (initializeBoard 1 1 1 10 Direction.RIGHT 0 SnakeGameLogic.construct)
        (nextHeadOf (initializeBoard 1 1 1 10 Direction.RIGHT 0 SnakeGameLogic.construct)) ∨
      getCell (initializeBoard 1 1 1 10 Direction.RIGHT 0 SnakeGameLogic.construct).board
        (nextHeadOf (initializeBoard 1 1 1 10 Direction.RIGHT 0 SnakeGameLogic.construct)) =
          WALL ∨
      nextHeadOf (initializeBoard 1 1 1 10 Direction.RIGHT 0 SnakeGameLogic.construct) ∈
        (initializeBoard 1 1 1 10 Direction.RIGHT 0 SnakeGameLogic.construct).snake) ∧
    ((update 0 (initializeBoard 1 1 1 10 Direction.RIGHT 0 SnakeGameLogic.construct)).1 = false ∧
      (update 0 (initializeBoard 1 1 1 10 Direction.RIGHT 0
        SnakeGameLogic.construct)).2.gameOver = true) :=
  ⟨by decide, by decide, Or.inl (by decide),
    (claim_C3_terminal_checks_order ⟨1, 1, 1, 10, Direction.RIGHT⟩ 0
      (initializeBoard 1 1 1 10 Direction.RIGHT 0 SnakeGameLogic.construct)
      (inv_initializeBoard ⟨1, 1, 1, 10, Direction.RIGHT⟩ 0 SnakeGameLogic.construct (by decide))
      (by decide) (Or.inl (by decide))).2.1,
    (claim_C3_terminal_checks_order ⟨1, 1, 1, 10, Direction.RIGHT⟩ 0
      (initializeBoard 1 1 1 10 Direction.RIGHT 0 SnakeGameLogic.construct)
      (inv_initializeBoard ⟨1, 1, 1, 10, Direction.RIGHT⟩ 0 SnakeGameLogic.construct (by decide))
      (by decide) (Or.inl (by decide))).2.2.1⟩

theorem claim_C2_witness :
    ValidInit ⟨5, 5, 1, 10, Direction.RIGHT⟩ ∧
    Reachable ⟨5, 5, 1, 10, Direction.RIGHT⟩
      (initializeBoard 5 5 1 10 Direction.RIGHT 0 SnakeGameLogic.construct) ∧
    (∀ p : Pos,
      getCell (currentSnapshot
        (initializeBoard 5 5 1 10 Direction.RIGHT 0 SnakeGameLogic.construct)).board p = SNAKE ↔
      p ∈ (currentSnapshot
        (initializeBoard 5 5 1 10 Direction.RIGHT 0 SnakeGameLogic.construct)).snake) :=
  ⟨by decide, Reachable.init 0 SnakeGameLogic.construct,
    (claim_C2_board_snake_lockstep ⟨5, 5, 1, 10, Direction.RIGHT⟩
      (initializeBoard 5 5 1 10 Direction.RIGHT 0 SnakeGameLogic.construct)
      (by decide) (Reachable.init 0 SnakeGameLogic.construct)).1⟩

theorem claim_C10_witness :
    ValidInit ⟨5, 5, 1, 10, Direction.RIGHT⟩ ∧
    Reachable ⟨5, 5, 1, 10, Direction.RIGHT⟩
      (initializeBoard 5 5 1 10 Direction.RIGHT 0 SnakeGameLogic.construct) ∧
    ((initializeBoard 5 5 1 10 Direction.RIGHT 0 SnakeGameLogic.construct).snakeGrowth = 0 ∧
      (currentSnapshot (initializeBoard 5 5 1 10 Direction.RIGHT 0
        SnakeGameLogic.construct)).score =
        (10 : Int) * ((currentSnapshot (initializeBoard 5 5 1 10 Direction.RIGHT 0
          SnakeGameLogic.construct)).snakeLength - 1)) :=
  ⟨by decide, Reachable.init 0 SnakeGameLogic.construct,
    (claim_C10_score_length_coupling ⟨5, 5, 1, 10, Direction.RIGHT⟩
      (initializeBoard 5 5 1 10 Direction.RIGHT 0 SnakeGameLogic.construct)
      (by decide) (Reachable.init 0 SnakeGameLogic.construct)).1,
    (claim_C10_score_length_coupling ⟨5, 5, 1, 10, Direction.RIGHT⟩
      (initializeBoard 5 5 1 10 Direction.RIGHT 0 SnakeGameLogic.construct)
      (by decide) (Reachable.init 0 SnakeGameLogic.construct)).2.1⟩

/-! ### No wall cell is ever reachable -/

theorem getCell_foldl_cases (v : Nat) (segs : List Pos) :
    ∀ (b : List (List Nat)) (p : Pos),
      getCell (segs.foldl (fun bb q => setCell bb q v) b) p = v ∨
      getCell (segs.foldl (fun bb q => setCell bb q v) b) p = getCell b p := by
  induction segs with
  | nil => intro b p; exact Or.inr rfl
  | cons a rest ih =>
    intro b p
    rw [List.foldl_cons]
    rcases ih (setCell b a v) p with hh | hh
    · exact Or.inl hh
    · rcases getCell_setCell_cases b a p v with hh2 | hh2
      · exact Or.inl (hh.trans hh2)
      · exact Or.inr (hh.trans hh2)

theorem noWall_setCell (b : List (List Nat)) (q : Pos) (v : Nat) (hv : v ≠ WALL)
    (h : ∀ p : Pos, getCell b p ≠ WALL) : ∀ p : Pos, getCell (setCell b q v) p ≠ WALL := by
  intro p
  rcases getCell_setCell_cases b q p v with hh | hh
  · rw [hh]
    exact hv
  · rw [hh]
    exact h p

theorem noWall_moveSnake (s : SnakeGameLogic) (nh : Pos)
    (h : ∀ p : Pos, getCell s.board p ≠ WALL) :
    ∀ p : Pos, getCell (moveSnake s nh).board p ≠ WALL := by
  unfold moveSnake
  dsimp only
  split
  · intro p
    show getCell (setCell s.board nh SNAKE) p ≠ WALL
    exact noWall_setCell _ _ _ (by simp [SNAKE, WALL]) h p
  · intro p
    show getCell (setCell (setCell s.board nh SNAKE)
      ((nh :: s.snake).getLastD (0, 0)) EMPTY) p ≠ WALL
    exact noWall_setCell _ _ _ (by simp [EMPTY, WALL])
      (noWall_setCell _ _ _ (by simp [SNAKE, WALL]) h) p

theorem noWall_placeRandomFood (choice : Nat) (s : SnakeGameLogic)
    (h : ∀ p : Pos, getCell s.board p ≠ WALL) :
    ∀ p : Pos, getCell (placeRandomFood choice s).board p ≠ WALL := by
  by_cases hec : emptyCellsList s.board s.rows s.cols = []
  · rw [placeRandomFood_none choice s hec]
    intro p
    show getCell s.board p ≠ WALL
    exact h p
  · obtain ⟨_, _, hbrd⟩ := placeRandomFood_some choice s hec
    intro p
    rw [hbrd]
    exact noWall_setCell _ _ _ (by simp [FOOD, WALL]) h p

theorem noWall_tickMove (choice : Nat) (s3 : SnakeGameLogic) (nh : Pos)
    (h : ∀ p : Pos, getCell s3.board p ≠ WALL) :
    ∀ p : Pos, getCell (tickMove choice s3 nh).2.board p ≠ WALL := by
  unfold tickMove
  dsimp only
  set s4 := if s3.foodExists = true ∧ nh = s3.food then ({ s3 with
    snakeGrowth := s3.snakeGrowth + 1, score := s3.score + s3.pointsPerFood,
    foodExists := false } : SnakeGameLogic) else s3 with hs4
  have hb4 : ∀ p : Pos, getCell s4.board p ≠ WALL := by
    rw [hs4]
    split
    · intro p
      exact h p
    · exact h
  have h5 : ∀ p : Pos, getCell (moveSnake s4 nh).board p ≠ WALL := noWall_moveSnake s4 nh hb4
  set s5 := moveSnake s4 nh with hs5
  have h6 : ∀ p : Pos,
      getCell (if s5.foodExists = false then placeRandomFood choice s5 else s5).board p ≠
        WALL := by
    split
    · exact noWall_placeRandomFood choice s5 h5
    · exact h5
  set s6 := if s5.foodExists = false then placeRandomFood choice s5 else s5 with hs6
  split
  · intro p
    dsimp only
    rw [publishState_board]
    exact h6 p
  · intro p
    dsimp only
    rw [publishState_board]
    exact h6 p

theorem noWall_update (choice : Nat) (s : SnakeGameLogic)
    (hb : ∀ p : Pos, getCell s.board p ≠ WALL) :
    ∀ p : Pos, getCell (update choice s).2.board p ≠ WALL := by
  by_cases hg : s.gameOver = true
  · rw [update, if_pos hg]
    exact hb
  · rw [update, if_neg hg]
    dsimp only
    have hb3 : ∀ p : Pos, getCell (applyDirection s).board p ≠ WALL := by
      intro p
      rw [applyDirection_board]
      exact hb p
    by_cases h1 : isInBounds (applyDirection s) (getNextHeadPosition (applyDirection s)) = false
    · rw [if_pos h1]
      intro p
      rw [publishState_board]
      exact hb3 p
    · rw [if_neg h1]
      by_cases h2 : getCell (applyDirection s).board (getNextHeadPosition (applyDirection s)) =
          WALL
      · rw [if_pos h2]
        intro p
        rw [publishState_board]
        exact hb3 p
      · rw [if_neg h2]
        by_cases h3 : checkSelfCollision (applyDirection s)
            (getNextHeadPosition (applyDirection s)) = true
        · rw [if_pos h3]
          intro p
          rw [publishState_board]
          exact hb3 p
        · rw [if_neg h3]
          exact noWall_tickMove choice (applyDirection s)
            (getNextHeadPosition (applyDirection s)) hb3

theorem noWall_reachable (P : InitParams) (s : SnakeGameLogic) (h : Reachable P s) :
    ∀ p : Pos, getCell s.board p ≠ WALL := by
  induction h with
  | init choice s0 =>
    intro p
    unfold initializeBoard
    dsimp only
    rw [publishState_board]
    apply noWall_placeRandomFood
    intro q
    show getCell (((List.range P.len.toNat).map (segPos P.rows P.cols P.dir)).foldl
      (fun bb pp => setCell bb pp SNAKE)
      (List.replicate P.rows.toNat (List.replicate P.cols.toNat EMPTY))) q ≠ WALL
    rcases getCell_foldl_cases SNAKE ((List.range P.len.toNat).map (segPos P.rows P.cols P.dir))
      (List.replicate P.rows.toNat (List.replicate P.cols.toNat EMPTY)) q with hh | hh
    · rw [hh]
      simp [SNAKE, WALL]
    · rw [hh, getCell_replicate]
      simp [EMPTY, WALL]
  | step choice s hs ih => exact noWall_update choice s ih
  | dirReq d hd s hs ih =>
    intro p
    show getCell s.board p ≠ WALL
    exact ih p

theorem snap_eq_tickMove (choice : Nat) (s3 : SnakeGameLogic) (nh : Pos) :
    currentSnapshot (tickMove choice s3 nh).2 = mkSnapshot (tickMove choice s3 nh).2 := by
  unfold tickMove
  dsimp only
  by_cases he : s3.foodExists = true ∧ nh = s3.food
  · rw [if_pos he]
    split <;> split <;> simp [currentSnapshot_publishState, mkSnapshot_publishState]
  · rw [if_neg he]
    split <;> split <;> simp [currentSnapshot_publishState, mkSnapshot_publishState]

theorem snap_eq_reachable (P : InitParams) (s : SnakeGameLogic) (h : Reachable P s) :
    currentSnapshot s = mkSnapshot s := by
  induction h with
  | init choice s0 =>
    unfold initializeBoard
    dsimp only
    rw [currentSnapshot_publishState, mkSnapshot_publishState]
  | step choice s hs ih =>
    by_cases hg : s.gameOver = true
    · rw [update, if_pos hg]
      exact ih
    · rw [update, if_neg hg]
      dsimp only
      by_cases h1 : isInBounds (applyDirection s) (getNextHeadPosition (applyDirection s)) =
          false
      · rw [if_pos h1]
        dsimp only
        rw [currentSnapshot_publishState, mkSnapshot_publishState]
      · rw [if_neg h1]
        by_cases h2 : getCell (applyDirection s).board
            (getNextHeadPosition (applyDirection s)) = WALL
        · rw [if_pos h2]
          dsimp only
          rw [currentSnapshot_publishState, mkSnapshot_publishState]
        · rw [if_neg h2]
          by_cases h3 : checkSelfCollision (applyDirection s)
              (getNextHeadPosition (applyDirection s)) = true
          · rw [if_pos h3]
            dsimp only
            rw [currentSnapshot_publishState, mkSnapshot_publishState]
          · rw [if_neg h3]
            exact snap_eq_tickMove choice (applyDirection s)
              (getNextHeadPosition (applyDirection s))
  | dirReq d hd s hs ih => exact ih

/-- Claim C9: in every state reachable through the public interface, no
board cell ever holds the Wall value (neither in the engine board nor in
any published snapshot), so the wall-collision branch of update() can
never fire; getCellType returns Wall only for coordinates outside the
snapshot's bounds. -/
theorem claim_C9_walls_unreachable (P : InitParams) (s : SnakeGameLogic) (hR : Reachable P s) :
    (∀ p : Pos, getCell s.board p ≠ WALL) ∧
    (∀ p : Pos, getCell (currentSnapshot s).board p ≠ WALL) ∧
    getCell s.board (nextHeadOf s) ≠ WALL ∧
    (∀ r c : Int, getCellType s r c = WALL →
      ¬(0 ≤ r ∧ r < (currentSnapshot s).rows ∧ 0 ≤ c ∧ c < (currentSnapshot s).cols)) := by
  have hnw := noWall_reachable P s hR
  have hsnap := snap_eq_reachable P s hR
  have hsnapnw : ∀ p : Pos, getCell (currentSnapshot s).board p ≠ WALL := by
    rw [hsnap]
    intro p
    exact hnw p
  refine ⟨hnw, hsnapnw, hnw _, ?_⟩
  intro r c hwall hin
  unfold getCellType at hwall
  rw [if_pos hin] at hwall
  have hcg : getCell (currentSnapshot s).board (r, c) = WALL := by
    unfold getCell
    rw [if_pos ⟨hin.1, hin.2.2.1⟩]
    exact hwall
  exact hsnapnw (r, c) hcg

theorem claim_C9_witness :
    Reachable ⟨5, 5, 1, 10, Direction.RIGHT⟩
      (initializeBoard 5 5 1 10 Direction.RIGHT 0 SnakeGameLogic.construct) ∧
    getCell (initializeBoard 5 5 1 10 Direction.RIGHT 0 SnakeGameLogic.construct).board
      (nextHeadOf (initializeBoard 5 5 1 10 Direction.RIGHT 0 SnakeGameLogic.construct)) ≠
        WALL :=
  ⟨Reachable.init 0 SnakeGameLogic.construct,
    (claim_C9_walls_unreachable ⟨5, 5, 1, 10, Direction.RIGHT⟩
      (initializeBoard 5 5 1 10 Direction.RIGHT 0 SnakeGameLogic.construct)
      (Reachable.init 0 SnakeGameLogic.construct)).2.2.1⟩

/-! ### Initialization layout facts -/

theorem init_snake (rows cols len ppf : Int) (d : Direction) (choice : Nat)
    (s0 : SnakeGameLogic) :
    (initializeBoard rows cols len ppf d choice s0).snake =
      (List.range len.toNat).map (segPos rows cols d) := by
  unfold initializeBoard
  dsimp only
  rw [publishState_snake, placeRandomFood_snake]

theorem init_score (rows cols len ppf : Int) (d : Direction) (choice : Nat)
    (s0 : SnakeGameLogic) :
    (initializeBoard rows cols len ppf d choice s0).score = 0 := by
  unfold initializeBoard
  dsimp only
  rw [publishState_score, placeRandomFood_score]

theorem init_gameOver (rows cols len ppf : Int) (d : Direction) (choice : Nat)
    (s0 : SnakeGameLogic) :
    (initializeBoard rows cols len ppf d choice s0).gameOver = false := by
  unfold initializeBoard
  dsimp only
  rw [publishState_gameOver, placeRandomFood_gameOver]

theorem init_foodExists (rows cols len ppf : Int) (d : Direction) (choice : Nat)
    (s0 : SnakeGameLogic)
    (hfit : ∀ i < len.toNat,
      0 ≤ (segPos rows cols d i).1 ∧ (segPos rows cols d i).1 < rows ∧
      0 ≤ (segPos rows cols d i).2 ∧ (segPos rows cols d i).2 < cols)
    (w : Pos) (hw : 0 ≤ w.1 ∧ w.1 < rows ∧ 0 ≤ w.2 ∧ w.2 < cols)
    (hwn : w ∉ (List.range len.toNat).map (segPos rows cols d)) :
    (initializeBoard rows cols len ppf d choice s0).foodExists = true := by
  unfold initializeBoard
  dsimp only
  rw [publishState_foodExists]
  set segs := (List.range len.toNat).map (segPos rows cols d) with hsegs
  set board0 := List.replicate rows.toNat (List.replicate cols.toNat EMPTY) with hboard0
  have hdims : ∀ p ∈ segs, InDims board0 p := by
    intro p hp
    rw [hsegs] at hp
    obtain ⟨i, hi, rfl⟩ := List.mem_map.mp hp
    rw [List.mem_range] at hi
    obtain ⟨a1, a2, a3, a4⟩ := hfit i hi
    refine ⟨a1, ?_, a3, ?_⟩
    · rw [hboard0, List.length_replicate]
      omega
    · rw [hboard0, list_getD_replicate,
        if_pos (show (segPos rows cols d i).1.toNat < rows.toNat by omega),
        List.length_replicate]
      omega
  have hcellw : getCell (segs.foldl (fun bb q => setCell bb q SNAKE) board0) w = EMPTY := by
    rw [getCell_foldl_setCell SNAKE segs board0 hdims w, if_neg hwn, hboard0, getCell_replicate]
  have hmem : w ∈ emptyCellsList (segs.foldl (fun bb q => setCell bb q SNAKE) board0)
      rows cols :=
    (mem_emptyCellsList _ _ _ _).mpr ⟨hw.1, hw.2.1, hw.2.2.1, hw.2.2.2, hcellw⟩
  have hne : emptyCellsList (segs.foldl (fun bb q => setCell bb q SNAKE) board0)
      rows cols ≠ [] := by
    intro hcontra
    rw [hcontra] at hmem
    exact absurd hmem (List.not_mem_nil w)
  exact (placeRandomFood_some choice _ hne).1

/-- Claim C5: after initializeBoard(20, 40, 3, pointsPerFood, Right),
whatever the RNG draw and the pre-init state, the snake (in the engine
and in the first published snapshot) is exactly
(10,20),(10,19),(10,18) head to tail, the score is 0, the game is not
over, and exactly one Food cell exists; in general for initial
direction Right, segment i lies at (rows/2, cols/2 - i). -/
theorem claim_C5_init_layout :
    (∀ (ppf : Int) (choice : Nat) (s0 : SnakeGameLogic),
      (initializeBoard 20 40 3 ppf Direction.RIGHT choice s0).snake =
        [((10 : Int), (20 : Int)), ((10 : Int), (19 : Int)), ((10 : Int), (18 : Int))] ∧
      (currentSnapshot (initializeBoard 20 40 3 ppf Direction.RIGHT choice s0)).snake =
        [((10 : Int), (20 : Int)), ((10 : Int), (19 : Int)), ((10 : Int), (18 : Int))] ∧
      (initializeBoard 20 40 3 ppf Direction.RIGHT choice s0).score = 0 ∧
      (initializeBoard 20 40 3 ppf Direction.RIGHT choice s0).gameOver = false ∧
      (initializeBoard 20 40 3 ppf Direction.RIGHT choice s0).foodExists = true ∧
      getCell (initializeBoard 20 40 3 ppf Direction.RIGHT choice s0).board
        (initializeBoard 20 40 3 ppf Direction.RIGHT choice s0).food = FOOD ∧
      (∀ p : Pos,
        getCell (initializeBoard 20 40 3 ppf Direction.RIGHT choice s0).board p = FOOD →
        p = (initializeBoard 20 40 3 ppf Direction.RIGHT choice s0).food)) ∧
    (∀ (rows cols len ppf : Int) (choice : Nat) (s0 : SnakeGameLogic) (i : Nat),
      i < len.toNat →
      (initializeBoard rows cols len ppf Direction.RIGHT choice s0).snake.getD i (0, 0) =
        (rows / 2, cols / 2 - (i : Int))) := by
  constructor
  · intro ppf choice s0
    have hV : ValidInit ⟨20, 40, 3, ppf, Direction.RIGHT⟩ := by
      refine ⟨by norm_num, by norm_num, by norm_num, by simp, ?_⟩
      intro i hi
      have hi2 : i < 3 := hi
      have hi3 : i = 0 ∨ i = 1 ∨ i = 2 := by omega
      rcases hi3 with rfl | rfl | rfl <;>
        exact ⟨by norm_num [segPos], by norm_num [segPos], by norm_num [segPos],
          by norm_num [segPos]⟩
    obtain ⟨hE, hsnap⟩ := inv_initializeBoard ⟨20, 40, 3, ppf, Direction.RIGHT⟩ choice s0 hV
    have hsnake : (initializeBoard 20 40 3 ppf Direction.RIGHT choice s0).snake =
        [((10 : Int), (20 : Int)), ((10 : Int), (19 : Int)), ((10 : Int), (18 : Int))] := by
      rw [init_snake]
      rfl
    have hsnap2 : currentSnapshot (initializeBoard 20 40 3 ppf Direction.RIGHT choice s0) =
        mkSnapshot (initializeBoard 20 40 3 ppf Direction.RIGHT choice s0) := hsnap
    have hfe : (initializeBoard 20 40 3 ppf Direction.RIGHT choice s0).foodExists = true :=
      init_foodExists 20 40 3 ppf Direction.RIGHT choice s0 hV.2.2.2.2
        ((0 : Int), (0 : Int)) ⟨by norm_num, by norm_num, by norm_num, by norm_num⟩
        (by decide)
    refine ⟨hsnake, ?_, init_score 20 40 3 ppf Direction.RIGHT choice s0,
      init_gameOver 20 40 3 ppf Direction.RIGHT choice s0, hfe, ?_, ?_⟩
    · rw [hsnap2]
      exact hsnake
    · exact (hE.cell_fd _).mpr ⟨hfe, rfl⟩
    · intro p hp
      exact ((hE.cell_fd p).mp hp).2
  · intro rows cols len ppf choice s0 i hi
    rw [init_snake]
    have hlen : i < ((List.range len.toNat).map (segPos rows cols Direction.RIGHT)).length := by
      rw [List.length_map, List.length_range]
      exact hi
    rw [List.getD_eq_getElem _ _ hlen, List.getElem_map, List.getElem_range]
    rfl

theorem claim_C5_witness :
    (0 : Nat) < (3 : Int).toNat ∧
    (initializeBoard 20 40 3 7 Direction.RIGHT 0 SnakeGameLogic.construct).snake.getD 0 (0, 0) =
      ((20 : Int) / 2, (40 : Int) / 2 - ((0 : Nat) : Int)) :=
  ⟨by decide, claim_C5_init_layout.2 20 40 3 7 0 SnakeGameLogic.construct 0 (by decide)⟩

/-- Claim C4: on a live reachable game, a tick whose computed next head
position equals the existing food eats it: the resulting published
state has score increased by exactly pointsPerFood, snake length
increased by exactly one, and food present at a cell that is not a
snake cell -- food is absent after the tick only if no empty cell
remains on the board. -/
theorem claim_C4_eating_tick (P : InitParams) (choice : Nat) (s : SnakeGameLogic)
    (hV : ValidInit P) (hR : Reachable P s) (hg : s.gameOver = false)
    (hfe : s.foodExists = true) (hhead : nextHeadOf s = s.food) :
    (update choice s).2.score = s.score + s.pointsPerFood ∧
    (update choice s).2.snake.length = s.snake.length + 1 ∧
    ((update choice s).2.foodExists = true →
      getCell (update choice s).2.board (update choice s).2.food = FOOD ∧
      (update choice s).2.food ∉ (update choice s).2.snake) ∧
    ((update choice s).2.foodExists = false →
      emptyCellsList (update choice s).2.board (update choice s).2.rows
        (update choice s).2.cols = []) ∧
    currentSnapshot (update choice s).2 = mkSnapshot (update choice s).2 := by
  obtain ⟨hE, _⟩ := inv_reachable P s hV hR
  have hE3 := engineInv_applyDirection P s hE
  have hfe3 : (applyDirection s).foodExists = true := by
    rw [applyDirection_foodExists]
    exact hfe
  have hnh : getNextHeadPosition (applyDirection s) = s.food := by
    rw [← nextHeadOf_eq]
    exact hhead
  have hbf : inB (applyDirection s) (getNextHeadPosition (applyDirection s)) := by
    rw [hnh]
    have hsf := hE.fd_inb hfe
    unfold inB at hsf ⊢
    rw [applyDirection_rows, applyDirection_cols]
    exact hsf
  have hfoodcell : getCell s.board s.food = FOOD := (hE.cell_fd s.food).mpr ⟨hfe, rfl⟩
  have hnot : getNextHeadPosition (applyDirection s) ∉ (applyDirection s).snake := by
    rw [hnh, applyDirection_snake]
    intro hmem
    have hsn := (hE.cell_sn s.food).mpr hmem
    rw [hsn] at hfoodcell
    exact absurd hfoodcell (by simp [SNAKE, FOOD])
  have hupd : update choice s =
      tickMove choice (applyDirection s) (getNextHeadPosition (applyDirection s)) := by
    rw [update, if_neg (by simp [hg])]
    dsimp only
    rw [if_neg (by
      have hbt : isInBounds (applyDirection s) (getNextHeadPosition (applyDirection s)) =
          true := (isInBounds_iff _ _).mpr hbf
      simp [hbt])]
    rw [if_neg (by
      rw [hnh, applyDirection_board, hfoodcell]
      simp [FOOD, WALL])]
    rw [if_neg (by
      intro hcc
      exact hnot (List.mem_of_mem_drop ((checkSelfCollision_iff _ _).mp hcc)))]
  obtain ⟨hInvr, hcdr, hif, hfoodr⟩ := tickMove_spec P choice (applyDirection s)
    (getNextHeadPosition (applyDirection s)) hE3 hbf hnot
  have hcond : (applyDirection s).foodExists = true ∧
      getNextHeadPosition (applyDirection s) = (applyDirection s).food :=
    ⟨hfe3, by rw [hnh, applyDirection_food]⟩
  rw [if_pos hcond] at hif
  obtain ⟨hsc, hln⟩ := hif
  rw [hupd]
  refine ⟨?_, ?_, ?_, hfoodr, hInvr.2⟩
  · rw [hsc, applyDirection_score, applyDirection_ppf]
  · rw [hln, applyDirection_snake]
  · intro hfet
    constructor
    · exact (hInvr.1.cell_fd _).mpr ⟨hfet, rfl⟩
    · intro hmem
      have hsn := (hInvr.1.cell_sn _).mpr hmem
      have hfd := (hInvr.1.cell_fd _).mpr ⟨hfet, rfl⟩
      rw [hsn] at hfd
      exact absurd hfd (by simp [SNAKE, FOOD])

theorem claim_C4_witness :
    ValidInit ⟨5, 5, 1, 10, Direction.RIGHT⟩ ∧
    Reachable ⟨5, 5, 1, 10, Direction.RIGHT⟩
      (initializeBoard 5 5 1 10 Direction.RIGHT 12 SnakeGameLogic.construct) ∧
    (initializeBoard 5 5 1 10 Direction.RIGHT 12 SnakeGameLogic.construct).gameOver = false ∧
    (initializeBoard 5 5 1 10 Direction.RIGHT 12 SnakeGameLogic.construct).foodExists = true ∧
    nextHeadOf (initializeBoard 5 5 1 10 Direction.RIGHT 12 SnakeGameLogic.construct) =
      (initializeBoard 5 5 1 10 Direction.RIGHT 12 SnakeGameLogic.construct).food ∧
    ((update 0 (initializeBoard 5 5 1 10 Direction.RIGHT 12
        SnakeGameLogic.construct)).2.score =
      (initializeBoard 5 5 1 10 Direction.RIGHT 12 SnakeGameLogic.construct).score +
        (initializeBoard 5 5 1 10 Direction.RIGHT 12
          SnakeGameLogic.construct).pointsPerFood ∧
      (update 0 (initializeBoard 5 5 1 10 Direction.RIGHT 12
        SnakeGameLogic.construct)).2.snake.length =
      (initializeBoard 5 5 1 10 Direction.RIGHT 12
        SnakeGameLogic.construct).snake.length + 1) :=
  ⟨by decide, Reachable.init 12 SnakeGameLogic.construct, by decide, by decide, by decide,
    (claim_C4_eating_tick ⟨5, 5, 1, 10, Direction.RIGHT⟩ 0
      (initializeBoard 5 5 1 10 Direction.RIGHT 12 SnakeGameLogic.construct)
      (by decide) (Reachable.init 12 SnakeGameLogic.construct)
      (by decide) (by decide) (by decide)).1,
    (claim_C4_eating_tick ⟨5, 5, 1, 10, Direction.RIGHT⟩ 0
      (initializeBoard 5 5 1 10 Direction.RIGHT 12 SnakeGameLogic.construct)
      (by decide) (Reachable.init 12 SnakeGameLogic.construct)
      (by decide) (by decide) (by decide)).2.1⟩

/-- Claim C1 is refuted by the code: the double-buffered mailbox reuses
a buffer after two publishes, overwriting in place the snapshot object
a reader still holds. Concretely: initialize a 5 x 5 game (snake at
(2,2), food drawn at (0,0)), hold the pointer currentState returns;
after two update() calls the held snapshot's snake reads [(2,4)], not
the [(2,2)] it held when it was obtained. -/
theorem claim_C1_held_snapshot_mutated :
    (derefState (initializeBoard 5 5 1 10 Direction.RIGHT 0 SnakeGameLogic.construct)
      (getGameState (initializeBoard 5 5 1 10 Direction.RIGHT 0
        SnakeGameLogic.construct))).snake = [((2 : Int), (2 : Int))] ∧
    (derefState
      (update 0 (update 0 (initializeBoard 5 5 1 10 Direction.RIGHT 0
        SnakeGameLogic.construct)).2).2
      (getGameState (initializeBoard 5 5 1 10 Direction.RIGHT 0
        SnakeGameLogic.construct))).snake = [((2 : Int), (4 : Int))] ∧
    derefState
      (update 0 (update 0 (initializeBoard 5 5 1 10 Direction.RIGHT 0
        SnakeGameLogic.construct)).2).2
      (getGameState (initializeBoard 5 5 1 10 Direction.RIGHT 0
        SnakeGameLogic.construct)) ≠
    derefState (initializeBoard 5 5 1 10 Direction.RIGHT 0 SnakeGameLogic.construct)
      (getGameState (initializeBoard 5 5 1 10 Direction.RIGHT 0
        SnakeGameLogic.construct)) := by
  refine ⟨by decide, by decide, by decide⟩

end SnakeGame
